import Mathlib

/-!
Shallow embedding of the coordination core of the `codex-worktree` repository
(`scripts/task_board.py`, `scripts/autopilot.py`, `scripts/router.py`).

Conventions of the embedding:
* Python `str` values are Lean `String`s; the CPython string methods used by
  the scripts (`strip`, `rstrip`, `lstrip("\n")`, `splitlines`, `"\n".join`,
  `startswith`, `lower`, quote stripping) are re-implemented below on the
  underlying character lists, specialised to `\n`-separated text as produced
  and consumed by the scripts themselves.
* Python dicts used as frontmatter headers are association lists with
  in-place overwrite (`dictSet`), which matches CPython insertion-order
  semantics for the dict-building code paths that occur in the scripts.
* Mutating task-board operations (`task_board.py`) become pure functions
  `List Task → result × List Task`; `_now()` timestamps are passed in as an
  explicit `now` argument, and fresh ids are passed in where the source
  draws them from the clock and `secrets`.
* Filesystem effects of the worker loop and the router are represented by
  the data they write (receipt status / exit code, final message location,
  task-board marking, enqueued bus messages, processed-hash sentinel value).
-/

namespace CodexWorktree

/-! ### Python string primitives -/

/-- Whitespace characters stripped by CPython `str.strip()` (ASCII range). -/
def isPyWs (c : Char) : Bool :=
  c = ' ' || c = '\t' || c = '\n' || c = '\r' || c = '\x0B' || c = '\x0C'

/-- Character-list version of `str.strip()`. -/
def stripList (l : List Char) : List Char :=
  ((l.dropWhile isPyWs).reverse.dropWhile isPyWs).reverse

/-- Python `s.strip()`. -/
def pyStrip (s : String) : String := ⟨stripList s.data⟩

/-- Python `s.rstrip()`. -/
def pyRstrip (s : String) : String := ⟨(s.data.reverse.dropWhile isPyWs).reverse⟩

/-- Python `s.lstrip("\n")`. -/
def pyLstripNL (s : String) : String := ⟨s.data.dropWhile (· = '\n')⟩

/-- Python `s.lower()` (ASCII). -/
def pyLower (s : String) : String := ⟨s.data.map Char.toLower⟩

/-- Split a character list at every newline, keeping all (possibly empty)
segments; the result is always non-empty. -/
def segsAux : List Char → List (List Char)
  | [] => [[]]
  | c :: r =>
    if c = '\n' then [] :: segsAux r
    else (c :: (segsAux r).headD []) :: (segsAux r).tail

/-- All newline-separated segments of a string (CPython `s.split("\n")`). -/
def pySegs (s : String) : List String := (segsAux s.data).map (⟨·⟩)

/-- Python `s.splitlines()` for `\n`-separated text: like `pySegs` but the
final empty segment produced by a trailing newline (or by the empty string)
is dropped. -/
def pySplitlines (s : String) : List String :=
  let m := pySegs s
  if m.getLast? = some "" then m.dropLast else m

/-- Python `"\n".join(lines)`. -/
def joinNL : List String → String
  | [] => ""
  | [x] => x
  | x :: y :: r => x ++ "\n" ++ joinNL (y :: r)

/-- Character-list version of `joinNL`. -/
def joinChars : List (List Char) → List Char
  | [] => []
  | [x] => x
  | x :: y :: r => x ++ '\n' :: joinChars (y :: r)

/-- The quote-stripping step shared by both frontmatter parsers:
`if v.startswith('"') and v.endswith('"'): v = v[1:-1]`. -/
def pyStripQuotes (s : String) : String :=
  if s.data.head? = some '"' ∧ s.data.getLast? = some '"' then
    ⟨s.data.tail.dropLast⟩
  else s

/-- Replace every double quote by a single quote
(`a.replace('"', "'")` in `enqueue_bus_message`; the pattern is a single
character, so a character map is equivalent). -/
def pyReplaceDQ (s : String) : String :=
  ⟨s.data.map (fun c => if c = '"' then '\x27' else c)⟩

/-- Boolean list-prefix test (Python `str.startswith`). -/
def isPre : List Char → List Char → Bool
  | [], _ => true
  | _ :: _, [] => false
  | a :: as, b :: bs => a = b && isPre as bs

/-! ### Frontmatter codec (`parse_frontmatter` in autopilot.py and router.py,
`enqueue_bus_message` in autopilot.py) -/

/-- Value of a frontmatter key: scalar string or list of strings. -/
inductive FmVal where
  | s (v : String)
  | l (items : List String)
deriving DecidableEq

/-- Frontmatter header: a Python dict modelled as an association list with
insertion-order overwrite semantics. -/
abbrev FmDict := List (String × FmVal)

/-- Python `fm.get(k)`. -/
def dictGet : FmDict → String → Option FmVal
  | [], _ => none
  | (k', v') :: rest, k => if k' = k then some v' else dictGet rest k

/-- Python `fm[k] = v`: overwrite in place, else append. -/
def dictSet : FmDict → String → FmVal → FmDict
  | [], k, v => [(k, v)]
  | (k', v') :: rest, k, v =>
    if k' = k then (k, v) :: rest else (k', v') :: dictSet rest k v

/-- Characters accepted by the key regex `[A-Za-z0-9_\-]`. -/
def isKeyChar (c : Char) : Bool :=
  ('A' ≤ c && c ≤ 'Z') || ('a' ≤ c && c ≤ 'z') || ('0' ≤ c && c ≤ '9') ||
    c = '_' || c = '-'

/-- Split a character list at the first `:` (the greedy key group of the
regex `^([A-Za-z0-9_\-]+):\s*(.*)$` cannot cross a colon). -/
def keySplit : List Char → Option (List Char × List Char)
  | [] => none
  | c :: r =>
    if c = ':' then some ([], r)
    else
      match keySplit r with
      | none => none
      | some (k, rest) => some (c :: k, rest)

/-- Match a `key: value` line against `^([A-Za-z0-9_\-]+):\s*(.*)$`,
returning the key and the stripped, quote-stripped value (the `\s*` group
followed by `.strip()` is equivalent to stripping the whole remainder). -/
def keyMatch (line : String) : Option (String × String) :=
  match keySplit line.data with
  | none => none
  | some (k, rest) =>
    if k ≠ [] ∧ k.all isKeyChar then
      some (⟨k⟩, pyStripQuotes (pyStrip ⟨rest⟩))
    else none

/-- The scanning loop of `parse_frontmatter` from index 1 onwards.  Returns
`some (header, remaining lines)` when a closing `---` line is found, `none`
when the input is exhausted first.  `ck` is `current_key`; the source only
ever stores non-empty keys in it, so `Option.isSome` coincides with Python
truthiness. -/
def fmLoop : List String → FmDict → Option String → Option (FmDict × List String)
  | [], _, _ => none
  | line :: rest, fm, ck =>
    if pyStrip line = "---" then some (fm, rest)
    else if isPre "  - ".data line.data ∧ ck.isSome then
      let k := ck.getD ""
      let val := pyStripQuotes (pyStrip ⟨line.data.drop 4⟩)
      let fm' :=
        match dictGet fm k with
        | some (.l xs) => dictSet fm k (.l (xs ++ [val]))
        | _ => dictSet fm k (.l [val])
      fmLoop rest fm' ck
    else
      match keyMatch line with
      | some (k, v) => fmLoop rest (dictSet fm k (.s v)) (some k)
      | none => fmLoop rest fm ck

/-- `parse_frontmatter(md)` (identical in `autopilot.py` and `router.py`):
returns the parsed header and the body, or an empty header together with the
raw input when the envelope is not recognised. -/
def parse_frontmatter (md : String) : FmDict × String :=
  let lines := pySplitlines md
  if lines.length < 3 then ([], md)
  else if pyStrip (lines.headD "") ≠ "---" then ([], md)
  else
    match fmLoop (lines.drop 1) [] none with
    | some (fm, rest) => (fm, pyLstripNL (joinNL rest))
    | none => ([], md)

/-- Header fields of a bus message as passed to `enqueue_bus_message`. -/
structure MsgHeader where
  mid : String
  fromRole : String
  toRole : String
  intent : String
  thread : String
  risk : String
  taskId : String := ""
  acceptance : List String := []
deriving DecidableEq

/-- `_normalize_list`: strip every item, drop empties. -/
def normalizeList (items : List String) : List String :=
  (items.map pyStrip).filter (· ≠ "")

/-- The header portion of the line list assembled by `enqueue_bus_message`:
everything up to the closing delimiter and the blank separator line. -/
def enqueueHdrLines (h : MsgHeader) : List String :=
  ["---", "id: " ++ h.mid, "from: " ++ h.fromRole, "to: " ++ h.toRole,
    "intent: " ++ h.intent, "thread: " ++ h.thread, "risk: " ++ h.risk]
  ++ (if pyStrip h.taskId ≠ "" then ["task_id: " ++ pyStrip h.taskId] else [])
  ++ (let acc := normalizeList h.acceptance
      if acc ≠ [] then
        "acceptance:" :: acc.map (fun a => "  - \"" ++ pyReplaceDQ a ++ "\"")
      else [])
  ++ ["---", ""]

/-- The full line list assembled by `enqueue_bus_message` before joining. -/
def enqueueLines (h : MsgHeader) (body : String) : List String :=
  enqueueHdrLines h ++ [pyRstrip body, ""]

/-- The message-envelope text written by `enqueue_bus_message`
(`"\n".join(lines)`; the atomic write stores this text verbatim). -/
def enqueue_bus_message (h : MsgHeader) (body : String) : String :=
  joinNL (enqueueLines h body)

/-- Validity domain of the round-trip property: header fields already
stripped, not wrapped in double quotes, and newline-free; acceptance items
additionally non-empty and free of double quotes (emission would replace
those with single quotes). -/
def ValidHeader (h : MsgHeader) : Prop :=
  (∀ v ∈ [h.mid, h.fromRole, h.toRole, h.intent, h.thread, h.risk, h.taskId],
      pyStrip v = v ∧ pyStripQuotes v = v ∧ '\n' ∉ v.data) ∧
  (∀ a ∈ h.acceptance, pyStrip a = a ∧ a ≠ "" ∧ '\n' ∉ a.data ∧ '"' ∉ a.data)

/-- Validity domain of the round-trip property on the body side: no
trailing whitespace (emission calls `rstrip()`) and no leading newlines
(parsing calls `lstrip("\n")`). -/
def ValidBody (b : String) : Prop := pyRstrip b = b ∧ pyLstripNL b = b

/-- The frontmatter dict corresponding to a `MsgHeader` (what a correct
round trip through the codec should reproduce): `task_id` is present exactly
when its stripped value is non-empty, `acceptance` exactly when the
normalized list is non-empty. -/
def headerDict (h : MsgHeader) : FmDict :=
  [("id", FmVal.s h.mid), ("from", FmVal.s h.fromRole), ("to", FmVal.s h.toRole),
    ("intent", FmVal.s h.intent), ("thread", FmVal.s h.thread), ("risk", FmVal.s h.risk)]
  ++ (if pyStrip h.taskId ≠ "" then [("task_id", FmVal.s (pyStrip h.taskId))] else [])
  ++ (let acc := normalizeList h.acceptance
      if acc ≠ [] then [("acceptance", FmVal.l acc)] else [])

/-! ### Task board (`scripts/task_board.py`) -/

/-- One `history` entry (`_history` appends `{at, action, by}` plus a `note`
key only when the note is non-empty). -/
structure HistEntry where
  at_ : String
  action : String
  by_ : String
  note : Option String := none
deriving DecidableEq

/-- The `dispatch` binding object `{from, to, intent, message_id, at}`. -/
structure DispatchInfo where
  fromRole : String
  toRole : String
  intent : String
  messageId : String
  at_ : String
deriving DecidableEq

/-- A task record.  Keys that the Python code reads with
`str(task.get(k, "")).strip()` are plain strings (missing key ≡ `""`);
`dispatch` is optional; `history`, `evidence`, `depends_on`, `acceptance`
are lists. -/
structure Task where
  id : String := ""
  title : String := ""
  status : String := ""
  owner : String := ""
  claimedBy : String := ""
  workType : String := ""
  risk : String := ""
  intent : String := ""
  sourceMessageId : String := ""
  createdBy : String := ""
  dependsOn : List String := []
  dispatch : Option DispatchInfo := none
  history : List HistEntry := []
  evidence : List String := []
  acceptance : List String := []
  createdAt : String := ""
  updatedAt : String := ""
  claimedAt : String := ""
  claimMessageId : String := ""
  completedBy : String := ""
  completedAt : String := ""
  receiptFile : String := ""
  lastError : String := ""
  lastErrorBy : String := ""
  lastErrorAt : String := ""
deriving DecidableEq

/-- `_history(task, action=…, by=…, note=…)`. -/
def histAppend (h : List HistEntry) (now action by_ note : String) : List HistEntry :=
  h ++ [⟨now, action, by_, if note ≠ "" then some note else none⟩]

/-- `_task_index`: first index whose stripped id equals `tid`, together with
the task found there. -/
def taskFindFrom (i : Nat) (tid : String) : List Task → Option (Nat × Task)
  | [] => none
  | t :: rest => if pyStrip t.id = tid then some (i, t) else taskFindFrom (i + 1) tid rest

/-- First task (with index) whose stripped id equals `tid`. -/
def taskFind (tasks : List Task) (tid : String) : Option (Nat × Task) :=
  taskFindFrom 0 tid tasks

/-- The `by_id` lookup in `_deps_satisfied`: entries are keyed by non-empty
stripped ids and later tasks overwrite earlier ones, so the lookup returns
the last matching task. -/
def byIdGet (tasks : List Task) (dep : String) : Option Task :=
  (tasks.filter (fun t => pyStrip t.id ≠ "" ∧ pyStrip t.id = dep)).getLast?

/-- The `missing` list of `_deps_satisfied`. -/
def depsMissing (tasks : List Task) (t : Task) : List String :=
  (normalizeList t.dependsOn).filter (fun dep =>
    match byIdGet tasks dep with
    | none => true
    | some dt => pyStrip dt.status ≠ "completed")

/-- Result triple `(ok, task, reason)` of a task-board mutation. -/
abbrev OpResult := Bool × Option Task × String

/-- The in-place mutation performed by `set_dispatch` when it binds. -/
def dispatchMut (t : Task) (fromRole toRole intent messageId now : String) : Task :=
  { t with
    dispatch := some ⟨pyStrip fromRole, pyStrip toRole, pyStrip intent,
      pyStrip messageId, now⟩,
    updatedAt := now,
    history := histAppend t.history now "dispatched"
      (if pyStrip fromRole ≠ "" then pyStrip fromRole else "system")
      (pyStrip messageId) }

/-- The in-place mutation shared by `claim_task` and `claim_next_task`
(`role` is already stripped by the callers; a pre-existing
`claim_message_id` is kept when the new message id is empty, matching the
conditional assignment in the source). -/
def claimMut (t : Task) (role messageId now : String) : Task :=
  { t with
    status := "in_progress", claimedBy := role, claimedAt := now,
    claimMessageId := if pyStrip messageId ≠ "" then pyStrip messageId else t.claimMessageId,
    updatedAt := now,
    history := histAppend t.history now "claimed" role (pyStrip messageId) }

/-- The in-place mutation performed by `complete_task` on success. -/
def completeMut (t : Task) (role evidence receiptFile now : String) : Task :=
  { t with
    status := "completed", completedBy := role, completedAt := now,
    updatedAt := now,
    evidence := if pyStrip evidence ≠ "" then t.evidence ++ [pyStrip evidence] else t.evidence,
    receiptFile := if pyStrip receiptFile ≠ "" then pyStrip receiptFile else t.receiptFile,
    history := histAppend t.history now "completed" role
      (if pyStrip evidence ≠ "" then pyStrip evidence else pyStrip receiptFile) }

/-- The in-place mutation performed by `mark_task_failed` past its guard. -/
def failMut (t : Task) (role error : String) (terminal : Bool) (now : String) : Task :=
  { t with
    status := if terminal then "failed" else t.status,
    lastError := pyStrip error, lastErrorBy := role, lastErrorAt := now,
    updatedAt := now,
    history := histAppend t.history now (if terminal then "failed" else "retry_error")
      role (pyStrip error) }

/-- `set_dispatch(task_id, from_role, to_role, intent, message_id)`:
bind the task to a message.  Note the source has no staleness/TTL branch:
a prior binding with a different message id always fails. -/
def set_dispatch (tasks : List Task)
    (taskId fromRole toRole intent messageId now : String) :
    OpResult × List Task :=
  match taskFind tasks taskId with
  | none => ((false, none, "not_found"), tasks)
  | some (i, t) =>
    let prevMid := match t.dispatch with
      | some p => pyStrip p.messageId
      | none => ""
    if prevMid ≠ "" then
      if prevMid = pyStrip messageId then
        ((true, some t, "already_dispatched_same"), tasks)
      else
        ((false, some t, "already_dispatched"), tasks)
    else
      let t' := dispatchMut t fromRole toRole intent messageId now
      ((true, some t', "ok"), tasks.set i t')

/-- `claim_task(task_id, role, message_id)`. -/
def claim_task (tasks : List Task) (taskId roleRaw messageId now : String) :
    OpResult × List Task :=
  let role := pyStrip roleRaw
  match taskFind tasks taskId with
  | none => ((false, none, "not_found"), tasks)
  | some (i, t) =>
    let status := pyStrip t.status
    let owner := pyStrip t.owner
    let claimedBy := pyStrip t.claimedBy
    if status = "completed" then ((false, some t, "completed"), tasks)
    else if status = "failed" then ((false, some t, "failed"), tasks)
    else if status = "in_progress" then
      if claimedBy = role then ((true, some t, "already_claimed"), tasks)
      else ((false, some t, "claimed_by_other"), tasks)
    else if status ≠ "pending" then ((false, some t, "invalid_status"), tasks)
    else if owner ≠ "" ∧ owner ≠ role then ((false, some t, "owner_mismatch"), tasks)
    else if depsMissing tasks t ≠ [] then
      ((false, some t, "deps_blocked:" ++ String.intercalate "," (depsMissing tasks t)), tasks)
    else
      let t' := claimMut t role messageId now
      ((true, some t', "claimed"), tasks.set i t')

/-- `complete_task(task_id, role, evidence, receipt_file)`. -/
def complete_task (tasks : List Task) (taskId roleRaw evidence receiptFile now : String) :
    OpResult × List Task :=
  let role := pyStrip roleRaw
  match taskFind tasks taskId with
  | none => ((false, none, "not_found"), tasks)
  | some (i, t) =>
    let status := pyStrip t.status
    let claimedBy := pyStrip t.claimedBy
    if status = "completed" then ((true, some t, "already_completed"), tasks)
    else if status ≠ "in_progress" then ((false, some t, "not_in_progress"), tasks)
    else if claimedBy ≠ "" ∧ claimedBy ≠ role then ((false, some t, "claimed_by_other"), tasks)
    else
      let t' := completeMut t role evidence receiptFile now
      ((true, some t', "completed"), tasks.set i t')

/-- `mark_task_failed(task_id, role, error, terminal)`. -/
def mark_task_failed (tasks : List Task) (taskId roleRaw error : String)
    (terminal : Bool) (now : String) : OpResult × List Task :=
  let role := pyStrip roleRaw
  match taskFind tasks taskId with
  | none => ((false, none, "not_found"), tasks)
  | some (i, t) =>
    if pyStrip t.status = "completed" then ((false, some t, "completed"), tasks)
    else
      let t' := failMut t role error terminal now
      ((true, some t', "updated"), tasks.set i t')

/-- Elementwise insertion used by `insSort`. -/
def insSorted (le : α → α → Bool) (a : α) : List α → List α
  | [] => [a]
  | b :: bs => if le a b then a :: b :: bs else b :: insSorted le a bs

/-- Insertion sort.  `_sort_tasks` uses Python's stable sort keyed by
`(created_at, id)`; sorting index-tagged tasks by the total order
`(created_at, id, index)` is equivalent. -/
def insSort (le : α → α → Bool) : List α → List α
  | [] => []
  | a :: as => insSorted le a (insSort le as)

/-- Tag list elements with their positions, starting at `k`. -/
def withIdxFrom (k : Nat) : List α → List (Nat × α)
  | [] => []
  | a :: as => (k, a) :: withIdxFrom (k + 1) as

/-- Total order on index-tagged tasks corresponding to Python's stable sort
by `(str(created_at), str(id))`. -/
def taskKeyLe (x y : Nat × Task) : Bool :=
  decide (x.2.createdAt < y.2.createdAt) ||
    (x.2.createdAt = y.2.createdAt &&
      (decide (x.2.id < y.2.id) || (x.2.id = y.2.id && x.1 ≤ y.1)))

/-- The candidate scan of `claim_next_task`: first pending task (in sorted
order) owned by `role` (or unowned) with satisfied dependencies; `reason`
tracks the most recent skip cause exactly as the Python loop does. -/
def cnLoop (tasks : List Task) (role : String) :
    List (Nat × Task) → String → Option (Nat × Task) × String
  | [], reason => (none, reason)
  | (i, t) :: rest, reason =>
    if pyStrip t.status ≠ "pending" then cnLoop tasks role rest reason
    else if pyStrip t.owner ≠ "" ∧ pyStrip t.owner ≠ role then
      cnLoop tasks role rest "owner_mismatch"
    else if depsMissing tasks t ≠ [] then
      cnLoop tasks role rest ("deps_blocked:" ++ String.intercalate "," (depsMissing tasks t))
    else (some (i, t), reason)

/-- `claim_next_task(role, message_id)`. -/
def claim_next_task (tasks : List Task) (roleRaw messageId now : String) :
    OpResult × List Task :=
  let role := pyStrip roleRaw
  let ordered := insSort taskKeyLe (withIdxFrom 0 tasks)
  match cnLoop tasks role ordered "none_available" with
  | (none, reason) => ((false, none, reason), tasks)
  | (some (i, t), _) =>
    let t' := claimMut t role messageId now
    ((true, some t', "claimed"), tasks.set i t')

/-- The task record created by `add_task` (fresh id and timestamp passed in
for the values the source draws from the clock and `secrets`). -/
def add_task_value (newId title owner workType risk intent sourceMessageId createdBy now : String)
    (acceptance dependsOn : List String) : Task :=
  { id := newId, title := pyStrip title, status := "pending", owner := pyStrip owner,
    claimedBy := "",
    workType := if pyStrip workType ≠ "" then pyStrip workType else "implement",
    risk := pyLower (if pyStrip risk ≠ "" then pyStrip risk else "low"),
    intent := if pyStrip intent ≠ "" then pyStrip intent else "implement",
    sourceMessageId := pyStrip sourceMessageId,
    createdBy := if pyStrip createdBy ≠ "" then pyStrip createdBy else "system",
    dependsOn := normalizeList dependsOn,
    acceptance := normalizeList acceptance,
    dispatch := none,
    createdAt := now, updatedAt := now,
    history := [⟨now, "created", if pyStrip createdBy ≠ "" then pyStrip createdBy else "system", none⟩] }

/-- The five mutating task-board operations quantified over by the
terminal-status claim. -/
inductive BoardOp where
  | dispatchOp (taskId fromRole toRole intent messageId now : String)
  | claimOp (taskId role messageId now : String)
  | claimNextOp (role messageId now : String)
  | completeOp (taskId role evidence receiptFile now : String)
  | failOp (taskId role error : String) (terminal : Bool) (now : String)

/-- Apply one task-board operation to the task list. -/
def applyOp (tasks : List Task) : BoardOp → List Task
  | .dispatchOp a b c d e f => (set_dispatch tasks a b c d e f).2
  | .claimOp a b c d => (claim_task tasks a b c d).2
  | .claimNextOp a b c => (claim_next_task tasks a b c).2
  | .completeOp a b c d e => (complete_task tasks a b c d e).2
  | .failOp a b c d e => (mark_task_failed tasks a b c d e).2

/-- Apply a sequence of task-board operations. -/
def applyOps (tasks : List Task) (ops : List BoardOp) : List Task :=
  ops.foldl applyOp tasks

/-- Status of the task at index `i` (or `""` when out of range). -/
def statusAt (tasks : List Task) (i : Nat) : String :=
  ((tasks[i]?).map Task.status).getD ""

/-! ### Worker loop: retry/dead-letter and role boundary
(`scripts/autopilot.py`, `process_one` lines 1437-1675 and
`_enforce_role_boundary`) -/

/-- `_role_allows_repo_writes`. -/
def role_allows_repo_writes (role : String) : Bool :=
  role = "builder-a" || role = "builder-b"

/-- Modes under which the boundary machinery is disabled. -/
def boundaryModeOff (mode : String) : Bool :=
  mode = "0" || mode = "off" || mode = "false" || mode = "disabled"

/-- Modes under which a boundary violation is fatal. -/
def boundaryModeEnforce (mode : String) : Bool :=
  mode = "1" || mode = "enforce" || mode = "strict"

/-- `_enforce_role_boundary(role, baseline=…, after=…)`; the module global
`ROLE_BOUNDARY_MODE` is passed in as `mode`.  `new_paths` is
`sorted(set(after) - set(baseline))`. -/
def enforce_role_boundary (mode role : String) (baseline after : List String) :
    Bool × String :=
  if boundaryModeOff mode then (true, "boundary_mode=off")
  else if role_allows_repo_writes role then (true, "boundary_ok(builder)")
  else
    let newPaths :=
      insSort (fun a b => decide (a < b) || a = b)
        ((after.filter (fun p => ¬ baseline.contains p)).dedup)
    if newPaths = [] then (true, "boundary_ok(no_new_repo_changes)")
    else if boundaryModeEnforce mode then
      (false, "role_boundary_violation role=" ++ role ++ " new_paths=" ++
        String.intercalate "," newPaths)
    else (true, "boundary_warn")

/-- Receipt status written by `write_receipt`. -/
inductive ReceiptStatus where
  | done
  | retry
  | deadletter
deriving DecidableEq

/-- Where the message file ends up after an attempt. -/
inductive MsgLoc where
  | inbox
  | archive
  | deadletter
deriving DecidableEq

/-- Task-board side effect of an attempt. -/
inductive TaskMark where
  | untouched
  | terminalFail
  | nonTerminalFail
  | completed
deriving DecidableEq

/-- Observable outcome of one `process_one` attempt on a selected message. -/
structure AttemptResult where
  receiptStatus : ReceiptStatus
  receiptRc : Int
  newCount : Nat
  loc : MsgLoc
  taskMark : TaskMark
deriving DecidableEq

/-- One (non-dry-run, non-bootstrap) attempt of `process_one` on a selected
message, after a task claim that produced `taskClaimed`.  `count` is the
persisted retry counter read from `state/processing/<mid>.<role>.retries.json`,
`toolRc` the exit code of the external tool, `baseline`/`after` the
changed/untracked worktree paths before and after the invocation.

Branches, in source order:
* `count ≥ 3` (before the attempt): move to dead-letter, mark the task
  failed terminally when a `task_id` is present, receipt
  `status=deadletter, codex_rc=99`.
* tool exit code non-zero: `RuntimeError` path — increment and persist the
  counter, mark the task failed non-terminally when claimed, receipt
  `status=retry`, message left in the inbox.
* boundary violation (non-builder role, mode not off, enforcement fails):
  `RoleBoundaryError` path — mark the task failed terminally when claimed,
  receipt `status=deadletter, codex_rc=97`, move to dead-letter.
* otherwise: receipt `status=done`, complete the task when claimed,
  write the done sentinel and archive. -/
def process_attempt (mode role taskId : String) (taskClaimed : Bool)
    (count : Nat) (toolRc : Int) (baseline after : List String) : AttemptResult :=
  if count ≥ 3 then
    { receiptStatus := .deadletter, receiptRc := 99, newCount := count,
      loc := .deadletter,
      taskMark := if taskId ≠ "" then .terminalFail else .untouched }
  else if toolRc ≠ 0 then
    { receiptStatus := .retry, receiptRc := toolRc, newCount := count + 1,
      loc := .inbox,
      taskMark := if taskId ≠ "" ∧ taskClaimed then .nonTerminalFail else .untouched }
  else if ¬ role_allows_repo_writes role ∧ ¬ boundaryModeOff mode ∧
      ¬ (enforce_role_boundary mode role baseline after).1 then
    { receiptStatus := .deadletter, receiptRc := 97, newCount := count,
      loc := .deadletter,
      taskMark := if taskId ≠ "" ∧ taskClaimed then .terminalFail else .untouched }
  else
    { receiptStatus := .done, receiptRc := toolRc, newCount := count,
      loc := .archive,
      taskMark := if taskId ≠ "" ∧ taskClaimed then .completed else .untouched }

/-- Running worker state for one message: persisted retry counter, receipts
emitted so far, current message location, latest task-board mark. -/
structure WorkerSt where
  count : Nat
  receipts : List (ReceiptStatus × Int)
  loc : MsgLoc
  taskMark : TaskMark
deriving DecidableEq

/-- Run up to `n` daemon cycles over one message: an attempt happens only
while the message is still in the inbox (once archived or dead-lettered the
selection loop no longer sees it). -/
def run_worker (mode role taskId : String) (taskClaimed : Bool) (toolRc : Int)
    (baseline after : List String) : Nat → WorkerSt → WorkerSt
  | 0, st => st
  | n + 1, st =>
    if st.loc = .inbox then
      let r := process_attempt mode role taskId taskClaimed st.count toolRc baseline after
      run_worker mode role taskId taskClaimed toolRc baseline after n
        ⟨r.newCount, st.receipts ++ [(r.receiptStatus, r.receiptRc)], r.loc, r.taskMark⟩
    else st

/-- Fresh state of an unprocessed message. -/
def freshMsg : WorkerSt := ⟨0, [], .inbox, .untouched⟩

/-! ### Router (`scripts/router.py`) -/

/-- A message enqueued by the router (`enqueue_bus_message` arguments; the
message id is generated from the clock at write time and is not part of the
model). -/
structure BusMsg where
  toRole : String
  fromRole : String
  intent : String
  thread : String
  risk : String
  body : String
deriving DecidableEq

/-- Python `repr` of a list of strings as produced by `str(front.get(k))`
when the frontmatter value is a list (quote escaping inside items is not
modelled; no script compares such values except against scalar literals). -/
def pyListRepr (xs : List String) : String :=
  "[" ++ String.intercalate ", " (xs.map (fun x => "\x27" ++ x ++ "\x27")) ++ "]"

/-- `str(front.get(k, default))` for a frontmatter dict. -/
def fmGetStr (fm : FmDict) (k dflt : String) : String :=
  match dictGet fm k with
  | none => dflt
  | some (.s v) => v
  | some (.l xs) => pyListRepr xs

/-- Python `x.strip() or dflt`. -/
def stripOr (x dflt : String) : String :=
  if pyStrip x = "" then dflt else pyStrip x

/-- Python `isalnum` restricted to ASCII. -/
def isPyAlnum (c : Char) : Bool := c.isAlpha || c.isDigit

/-- Key characters of `parse_kv_block` (`s[i].isalnum() or s[i] in "_-"`). -/
def kvKeyChar (c : Char) : Bool := isPyAlnum c || c = '_' || c = '-'

/-- The quoted-value scanner of `parse_kv_block`: consume characters after
an opening `"` honouring backslash escapes, returning the value and the
remaining input. -/
def readQuoted : List Char → List Char × List Char
  | [] => ([], [])
  | [c] => if c = '"' then ([], []) else ([c], [])
  | c1 :: c2 :: r =>
    if c1 = '\\' then ((c2 :: (readQuoted r).1), (readQuoted r).2)
    else if c1 = '"' then ([], c2 :: r)
    else ((c1 :: (readQuoted (c2 :: r)).1), (readQuoted (c2 :: r)).2)

theorem readQuoted_length_le (l : List Char) : (readQuoted l).2.length ≤ l.length := by
  induction l using readQuoted.induct <;> simp_all [readQuoted] <;> omega

theorem length_dropWhile_le' (p : α → Bool) (l : List α) :
    (l.dropWhile p).length ≤ l.length := by
  induction l with
  | nil => simp [List.dropWhile]
  | cons a l ih =>
    by_cases h : p a <;> simp [List.dropWhile, h] <;> omega

theorem dropWhile_head_false {p : α → Bool} {l : List α} {a : α} {t : List α}
    (h : l.dropWhile p = a :: t) : p a = false := by
  induction l with
  | nil => simp [List.dropWhile] at h
  | cons b l ih =>
    by_cases hb : p b
    · rw [List.dropWhile_cons_of_pos hb] at h
      exact ih h
    · rw [List.dropWhile_cons_of_neg hb] at h
      cases h
      simpa using hb

/-- The key/value pairs collected by `parse_kv_block`, in scan order;
malformed input terminates the scan exactly where the Python loop `break`s. -/
def parseKVpairs (cs : List Char) : List (String × String) :=
  if cs.dropWhile isPyWs = [] then []
  else if (cs.dropWhile isPyWs).takeWhile kvKeyChar = [] then []
  else
    match h2 : ((cs.dropWhile isPyWs).dropWhile kvKeyChar).dropWhile isPyWs with
    | [] => []
    | '=' :: r3 =>
      match h4 : r3.dropWhile isPyWs with
      | [] => []
      | '"' :: r5 =>
        (⟨(cs.dropWhile isPyWs).takeWhile kvKeyChar⟩, ⟨(readQuoted r5).1⟩) ::
          parseKVpairs (readQuoted r5).2
      | c :: r6 =>
        (⟨(cs.dropWhile isPyWs).takeWhile kvKeyChar⟩,
          ⟨(r3.dropWhile isPyWs).takeWhile (fun x => ¬ isPyWs x)⟩) ::
          parseKVpairs ((r3.dropWhile isPyWs).dropWhile (fun x => ¬ isPyWs x))
    | _ :: _ => []
  termination_by cs.length
  decreasing_by
  · have ha : (readQuoted r5).2.length ≤ r5.length := readQuoted_length_le r5
    have hb := congrArg List.length h4
    have hc : (r3.dropWhile isPyWs).length ≤ r3.length := length_dropWhile_le' _ _
    have hd := congrArg List.length h2
    have he : (((cs.dropWhile isPyWs).dropWhile kvKeyChar).dropWhile isPyWs).length ≤
        ((cs.dropWhile isPyWs).dropWhile kvKeyChar).length := length_dropWhile_le' _ _
    have hf : ((cs.dropWhile isPyWs).dropWhile kvKeyChar).length ≤
        (cs.dropWhile isPyWs).length := length_dropWhile_le' _ _
    have hg : (cs.dropWhile isPyWs).length ≤ cs.length := length_dropWhile_le' _ _
    simp only [List.length_cons] at hb hd
    omega
  · have hws : isPyWs c = false := dropWhile_head_false h4
    have h8 : ((r3.dropWhile isPyWs).dropWhile (fun x => ¬ isPyWs x)).length <
        (r3.dropWhile isPyWs).length := by
      rw [h4, List.dropWhile_cons_of_pos (by simp [hws])]
      have := length_dropWhile_le' (fun x => ¬ isPyWs x) r6
      simp only [List.length_cons]
      omega
    have hc : (r3.dropWhile isPyWs).length ≤ r3.length := length_dropWhile_le' _ _
    have hd := congrArg List.length h2
    have he : (((cs.dropWhile isPyWs).dropWhile kvKeyChar).dropWhile isPyWs).length ≤
        ((cs.dropWhile isPyWs).dropWhile kvKeyChar).length := length_dropWhile_le' _ _
    have hf : ((cs.dropWhile isPyWs).dropWhile kvKeyChar).length ≤
        (cs.dropWhile isPyWs).length := length_dropWhile_le' _ _
    have hg : (cs.dropWhile isPyWs).length ≤ cs.length := length_dropWhile_le' _ _
    simp only [List.length_cons] at hd
    omega

/-- Association-list upsert for string-valued Python dicts. -/
def dictSetS : List (String × String) → String → String → List (String × String)
  | [], k, v => [(k, v)]
  | (k', v') :: rest, k, v =>
    if k' = k then (k, v) :: rest else (k', v') :: dictSetS rest k v

/-- Python `d.get(k)` for string-valued dicts. -/
def dGet : List (String × String) → String → Option String
  | [], _ => none
  | (k', v') :: rest, k => if k' = k then some v' else dGet rest k

/-- `parse_kv_block(s)`: the final dict after all overwrites. -/
def parse_kv_block (s : String) : List (String × String) :=
  (parseKVpairs s.data).foldl (fun d kv => dictSetS d kv.1 kv.2) []

/-- The directive marker `::bus-send{`. -/
def busSendMarker : List Char := "::bus-send\x7b".data

theorem findDirectives_dec {c x : Char} {l r2 : List Char}
    (hw : (l.drop 10).dropWhile (· ≠ '\x7d') = x :: r2) :
    r2.length < (c :: l).length := by
  have h1 : ((l.drop 10).dropWhile (· ≠ '\x7d')).length ≤ (l.drop 10).length :=
    length_dropWhile_le' _ _
  rw [hw] at h1
  have h2 : (l.drop 10).length ≤ l.length := by
    rw [List.length_drop]
    omega
  simp only [List.length_cons] at h1 ⊢
  omega

/-- Scan for `::bus-send{([^}]*)}` matches, left to right, non-overlapping,
returning the captured argument blocks.  When the regex can find no closing
brace after a marker there is no brace anywhere in the remaining text, so no
further match is possible either. -/
def findDirectives : List Char → List String
  | [] => []
  | c :: rest =>
    if isPre busSendMarker (c :: rest) then
      match hw : (rest.drop 10).dropWhile (· ≠ '\x7d') with
      | _ :: r2 => (⟨(rest.drop 10).takeWhile (· ≠ '\x7d')⟩ : String) :: findDirectives r2
      | [] => []
    else findDirectives rest
  termination_by l => l.length
  decreasing_by
  · exact findDirectives_dec hw
  · simp

/-- `parse_bus_send_directives(text)`. -/
def parse_bus_send_directives (text : String) : List (List (String × String)) :=
  ((findDirectives text.data).map parse_kv_block).filter (· ≠ [])

/-- `allowed_intent(sender_role, intent)`. -/
def allowed_intent (senderRole intentRaw : String) : Bool :=
  let intent := pyLower (pyStrip intentRaw)
  if intent = "" then false
  else if senderRole = "lead" then true
  else intent ∈ ["question", "review", "test", "fix", "info", "alert"]

/-- `valid_role(roles, r)`. -/
def valid_role (roles : List String) (r : String) : Bool :=
  pyStrip r ≠ "" && roles.contains (pyStrip r)

/-- Segments of `re.split(r"[,\s]+", …)` before filtering. -/
def splitSepAux : List Char → List (List Char)
  | [] => [[]]
  | c :: r =>
    match splitSepAux r with
    | [] => [[c]]
    | h :: t =>
      if c = ',' || isPyWs c then [] :: h :: t else (c :: h) :: t

/-- `[p for p in re.split(r"[,\s]+", s) if p]` — splitting on runs of
commas/whitespace and keeping non-empty parts is equivalent to splitting at
every separator character and filtering empties. -/
def splitCommaWs (s : String) : List String :=
  ((splitSepAux s.data).map (fun l => (⟨l⟩ : String))).filter (· ≠ "")

/-- The accumulation loop of `parse_target_roles`. -/
def ptrLoop (roles : List String) (senderRole : String) :
    List String → List String → List String
  | [], out => out
  | p :: rest, out =>
    if pyLower p = "all" then
      ptrLoop roles senderRole rest
        (roles.foldl (fun acc r =>
          if r ≠ senderRole ∧ ¬ acc.contains r then acc ++ [r] else acc) out)
    else if valid_role roles p ∧ ¬ out.contains p then
      ptrLoop roles senderRole rest (out ++ [p])
    else ptrLoop roles senderRole rest out

/-- `parse_target_roles(roles, to_expr, sender_role=…)`. -/
def parse_target_roles (roles : List String) (toExpr senderRole : String) :
    List String :=
  let te := pyStrip toExpr
  if te = "" then []
  else ptrLoop roles senderRole (splitCommaWs te) []

/-- Python `(d.get(k) or dflt)`: `or` replaces both a missing key and an
empty string. -/
def dGetOr (d : List (String × String)) (k dflt : String) : String :=
  match dGet d k with
  | none => dflt
  | some "" => dflt
  | some v => v

/-- `dispatch_from_receipt` (non-dry-run): the bus messages enqueued for one
receipt's directives, in order. -/
def dispatch_from_receipt (roles : List String)
    (workerRole thread receiptId : String)
    (directives : List (List (String × String))) : List BusMsg :=
  directives.flatMap (fun d =>
    let toExpr := pyStrip (dGetOr d "to" "")
    let intent := pyStrip (dGetOr d "intent" "")
    let risk := pyStrip (dGetOr d "risk" "low")
    let message := pyStrip (dGetOr d "message" "")
    let accept := pyStrip (dGetOr d "accept" "")
    if ¬ allowed_intent workerRole intent then
      if roles.contains "lead" then
        [⟨"lead", "router", "alert", thread, "medium",
          "Disallowed ::bus-send intent \"" ++ intent ++ "\" from worker " ++
            workerRole ++ " (receipt " ++ receiptId ++ ")."⟩]
      else []
    else if message = "" then []
    else
      let targets := parse_target_roles roles toExpr workerRole
      if targets = [] then
        if roles.contains "lead" then
          [⟨"lead", "router", "alert", thread, "medium",
            "Invalid ::bus-send target \"" ++ toExpr ++ "\" from receipt " ++
              receiptId ++ " (worker=" ++ workerRole ++ ")."⟩]
        else []
      else
        let body :=
          joinNL ["Auto-dispatched by router from a worker receipt.", "",
            "- receipt_id: " ++ receiptId, "- worker_role: " ++ workerRole, "",
            message, ""] ++
          (if accept ≠ "" then "\nAcceptance:\n- " ++ accept ++ "\n" else "")
        targets.map (fun t =>
          ⟨t, workerRole, intent, thread, if risk = "" then "low" else risk, body⟩))

/-- `receipt_targets(roles, receipt_front)`. -/
def receipt_targets (roles : List String) (fm : FmDict) : List String :=
  let out : List String := if roles.contains "lead" then ["lead"] else []
  let reqFrom := pyStrip (fmGetStr fm "request_from" "")
  if reqFrom ≠ "" ∧ roles.contains reqFrom ∧ ¬ out.contains reqFrom then
    out ++ [reqFrom]
  else out

/-- `receipt_intent(status)`. -/
def receipt_intent (status : String) : String :=
  if status = "retry" || status = "deadletter" then "alert" else "receipt"

/-- Result of `process_receipt` on one readable receipt file: the
processed-hash sentinel value afterwards, the bus messages enqueued, and the
boolean return value. -/
structure RouterResult where
  stored : Option String
  enqueued : List BusMsg
  handled : Bool
deriving DecidableEq

/-- `process_receipt` on a readable receipt (non-dry-run), parameterised by
the content-hash function (`sha256_text` in the source — any deterministic
function; no property below depends on its definition).  `stored` is the
current content of `state/router/processed/<name>.sha256` (stripped) and
`raw` the receipt text; `sessionName`, `receiptStem`, `receiptPathStr` stand
for `sp.session_root.name`, `receipt_path.stem` and `str(receipt_path)`. -/
def process_receipt (hash : String → String) (roles : List String)
    (sessionName receiptStem receiptPathStr : String)
    (stored : Option String) (raw : String) : RouterResult :=
  let cur := hash raw
  let prev := stored.getD ""
  if prev = cur then ⟨stored, [], false⟩
  else
    let fm := (parse_frontmatter raw).1
    let thread := stripOr (fmGetStr fm "thread" sessionName) sessionName
    let mid := stripOr (fmGetStr fm "id" receiptStem) receiptStem
    let role := pyStrip (fmGetStr fm "role" "unknown")
    let status := pyStrip (fmGetStr fm "status" "unknown")
    let codexRc := pyStrip (fmGetStr fm "codex_rc" "")
    let taskId := pyStrip (fmGetStr fm "task_id" "")
    let reqFrom := pyStrip (fmGetStr fm "request_from" "")
    let reqTo := pyStrip (fmGetStr fm "request_to" "")
    let reqIntent := pyStrip (fmGetStr fm "request_intent" "")
    if reqFrom = "router" then ⟨some cur, [], true⟩
    else
      let directives := parse_bus_send_directives raw
      let dmsgs := dispatch_from_receipt roles role thread mid directives
      let intent := receipt_intent status
      let risk := if intent = "alert" then "medium" else "low"
      let targets := receipt_targets roles fm
      let forwarded :=
        joinNL ["Receipt forwarded by router.", "",
          "- message_id: " ++ mid,
          "- worker_role: " ++ role,
          "- status: " ++ status,
          "- codex_rc: " ++ codexRc,
          "- task_id: " ++ (if taskId = "" then "-" else taskId),
          "- request_from: " ++ reqFrom,
          "- request_to: " ++ reqTo,
          "- request_intent: " ++ reqIntent,
          "- receipt_file: " ++ receiptPathStr,
          "",
          "Receipt content (verbatim):", "```md", pyRstrip raw, "```", "",
          "If follow-up work is needed, dispatch it via the bus (no shared-file edits):",
          "  ./scripts/bus-send.sh --session " ++ thread ++
            " --from <role> --to <role> --intent <intent> --message \"<...>\""]
      let fmsgs := targets.map (fun t => BusMsg.mk t "router" intent thread risk forwarded)
      ⟨some cur, dmsgs ++ fmsgs, true⟩

end CodexWorktree

namespace CodexWorktree

/-! ### General lemmas: Python strip idempotence, find/set interaction,
sorting membership -/

theorem dropWhile_idem (p : α → Bool) (l : List α) :
    (l.dropWhile p).dropWhile p = l.dropWhile p := by
  induction l with
  | nil => simp
  | cons a l ih =>
    by_cases h : p a
    · rw [List.dropWhile_cons_of_pos h]
      exact ih
    · rw [List.dropWhile_cons_of_neg h, List.dropWhile_cons_of_neg h]

theorem dropWhile_prefix_fixed {p : α → Bool} {y z : List α}
    (hy : y.dropWhile p = y) (hz : z <+: y) : z.dropWhile p = z := by
  cases z with
  | nil => simp
  | cons a z' =>
    obtain ⟨r, hr⟩ := hz
    have hpa : p a = false := by
      by_contra hne
      have hpa : p a = true := by simpa using hne
      rw [← hr, List.cons_append, List.dropWhile_cons_of_pos hpa] at hy
      have hlen := congrArg List.length hy
      have hle := length_dropWhile_le' p (z' ++ r)
      simp only [List.length_cons] at hlen
      omega
    rw [List.dropWhile_cons_of_neg (by simp [hpa])]

theorem stripList_idem (l : List Char) : stripList (stripList l) = stripList l := by
  unfold stripList
  have hyfix : (l.dropWhile isPyWs).dropWhile isPyWs = l.dropWhile isPyWs :=
    dropWhile_idem isPyWs l
  have hsuf : (l.dropWhile isPyWs).reverse.dropWhile isPyWs <:+ (l.dropWhile isPyWs).reverse :=
    List.dropWhile_suffix isPyWs
  have hzpre : ((l.dropWhile isPyWs).reverse.dropWhile isPyWs).reverse <+: l.dropWhile isPyWs := by
    have h2 := (List.reverse_prefix).mpr hsuf
    rwa [List.reverse_reverse] at h2
  have hA : (((l.dropWhile isPyWs).reverse.dropWhile isPyWs).reverse).dropWhile isPyWs =
      ((l.dropWhile isPyWs).reverse.dropWhile isPyWs).reverse :=
    dropWhile_prefix_fixed hyfix hzpre
  rw [hA, List.reverse_reverse,
    dropWhile_idem isPyWs (l.dropWhile isPyWs).reverse]

theorem pyStrip_idem (s : String) : pyStrip (pyStrip s) = pyStrip s :=
  congrArg String.mk (stripList_idem s.data)

theorem taskFindFrom_spec {k : Nat} {tid : String} {l : List Task} {i : Nat} {t : Task}
    (h : taskFindFrom k tid l = some (i, t)) :
    k ≤ i ∧ l[i - k]? = some t ∧ pyStrip t.id = tid := by
  induction l generalizing k with
  | nil => simp [taskFindFrom] at h
  | cons a l ih =>
    rw [taskFindFrom] at h
    split at h
    · rename_i hid
      cases h
      exact ⟨le_refl _, by simp, hid⟩
    · obtain ⟨h1, h2, h3⟩ := ih h
      refine ⟨by omega, ?_, h3⟩
      have hik : i - k = (i - (k + 1)) + 1 := by omega
      rw [hik]
      simpa using h2

theorem taskFind_spec {tasks : List Task} {tid : String} {i : Nat} {t : Task}
    (h : taskFind tasks tid = some (i, t)) :
    tasks[i]? = some t ∧ pyStrip t.id = tid := by
  have h2 := taskFindFrom_spec (k := 0) h
  exact ⟨by simpa using h2.2.1, h2.2.2⟩

theorem taskFindFrom_set {k : Nat} {tid : String} {l : List Task} {i : Nat} {t u : Task}
    (h : taskFindFrom k tid l = some (i, t)) (hid : pyStrip u.id = pyStrip t.id) :
    taskFindFrom k tid (l.set (i - k) u) = some (i, u) := by
  induction l generalizing k with
  | nil => simp [taskFindFrom] at h
  | cons a l ih =>
    rw [taskFindFrom] at h
    split at h
    · rename_i hida
      cases h
      simp only [Nat.sub_self, List.set_cons_zero, taskFindFrom]
      rw [if_pos (by rw [hid]; exact hida)]
    · rename_i hida
      have hik : k + 1 ≤ i := (taskFindFrom_spec h).1
      have hstep : i - k = (i - (k + 1)) + 1 := by omega
      rw [hstep, List.set_cons_succ, taskFindFrom, if_neg hida]
      exact ih h

theorem taskFind_set {tasks : List Task} {tid : String} {i : Nat} {t u : Task}
    (h : taskFind tasks tid = some (i, t)) (hid : pyStrip u.id = pyStrip t.id) :
    taskFind (tasks.set i u) tid = some (i, u) := by
  have h2 := taskFindFrom_set (k := 0) h hid
  simpa [taskFind] using h2

theorem statusAt_set_other {tasks : List Task} {j : Nat} {t' : Task} {i : Nat}
    (h : i ≠ j) : statusAt (tasks.set j t') i = statusAt tasks i := by
  simp [statusAt, List.getElem?_set_ne (Ne.symm h)]

theorem statusAt_set_same {tasks : List Task} {j : Nat} {t t' : Task} (i : Nat)
    (hget : tasks[j]? = some t) (hstat : t'.status = t.status) :
    statusAt (tasks.set j t') i = statusAt tasks i := by
  by_cases hij : i = j
  · subst hij
    have hlt : i < tasks.length := by
      by_contra hge
      rw [List.getElem?_eq_none (by omega)] at hget
      cases hget
    rw [statusAt, List.getElem?_set_self hlt, statusAt, hget]
    simp [hstat]
  · exact statusAt_set_other hij

theorem mem_insSorted {le : α → α → Bool} {a x : α} {l : List α} :
    x ∈ insSorted le a l ↔ x = a ∨ x ∈ l := by
  induction l with
  | nil => simp [insSorted]
  | cons b bs ih =>
    simp only [insSorted]
    split
    · simp
    · simp only [List.mem_cons, ih]
      tauto

theorem mem_insSort {le : α → α → Bool} {x : α} {l : List α}
    (h : x ∈ insSort le l) : x ∈ l := by
  induction l with
  | nil => simpa [insSort] using h
  | cons a as ih =>
    rw [insSort, mem_insSorted] at h
    rcases h with h | h
    · simp [h]
    · simp [ih h]

theorem insSorted_ne_nil (le : α → α → Bool) (a : α) (l : List α) :
    insSorted le a l ≠ [] := by
  cases l with
  | nil => simp [insSorted]
  | cons b bs =>
    simp only [insSorted]
    split <;> simp

theorem insSort_eq_nil_iff (le : α → α → Bool) (l : List α) :
    insSort le l = [] ↔ l = [] := by
  cases l with
  | nil => simp [insSort]
  | cons a as =>
    simp only [insSort]
    constructor
    · intro h
      exact absurd h (insSorted_ne_nil le a (insSort le as))
    · intro h
      cases h

theorem withIdxFrom_mem {k j : Nat} {u : α} {l : List α}
    (h : (j, u) ∈ withIdxFrom k l) : k ≤ j ∧ l[j - k]? = some u := by
  induction l generalizing k with
  | nil => simp [withIdxFrom] at h
  | cons a as ih =>
    rw [withIdxFrom] at h
    rcases List.mem_cons.mp h with h | h
    · simp only [Prod.mk.injEq] at h
      obtain ⟨h1, h2⟩ := h
      subst h1
      subst h2
      exact ⟨le_refl _, by simp⟩
    · obtain ⟨h1, h2⟩ := ih h
      refine ⟨by omega, ?_⟩
      have hj : j - k = (j - (k + 1)) + 1 := by omega
      rw [hj]
      simpa using h2

theorem cnLoop_some {tasks : List Task} {role : String} {l : List (Nat × Task)}
    {r r' : String} {j : Nat} {u : Task}
    (h : cnLoop tasks role l r = (some (j, u), r')) :
    (j, u) ∈ l ∧ pyStrip u.status = "pending" := by
  induction l generalizing r with
  | nil => simp [cnLoop] at h
  | cons p rest ih =>
    obtain ⟨pi, pt⟩ := p
    rw [cnLoop] at h
    by_cases h1 : pyStrip pt.status ≠ "pending"
    · rw [if_pos h1] at h
      exact ⟨List.mem_cons_of_mem _ (ih h).1, (ih h).2⟩
    · rw [if_neg h1] at h
      by_cases h2 : pyStrip pt.owner ≠ "" ∧ pyStrip pt.owner ≠ role
      · rw [if_pos h2] at h
        exact ⟨List.mem_cons_of_mem _ (ih h).1, (ih h).2⟩
      · rw [if_neg h2] at h
        by_cases h3 : depsMissing tasks pt ≠ []
        · rw [if_pos h3] at h
          exact ⟨List.mem_cons_of_mem _ (ih h).1, (ih h).2⟩
        · rw [if_neg h3] at h
          simp only [Prod.mk.injEq, Option.some.injEq] at h
          obtain ⟨⟨hj, hu⟩, -⟩ := h
          subst hj
          subst hu
          exact ⟨List.mem_cons_self _ _, by simpa using h1⟩

theorem terminal_strip {s : String} (hs : s = "completed" ∨ s = "failed") :
    pyStrip s = s ∧ s ≠ "pending" ∧ s ≠ "in_progress" := by
  rcases hs with h | h <;> subst h <;> exact ⟨by decide, by decide, by decide⟩

/-! ### Status preservation of each task-board operation (for C4) -/

theorem set_dispatch_preserves_status (tasks : List Task)
    (a b c d e f : String) (i : Nat) :
    statusAt (set_dispatch tasks a b c d e f).2 i = statusAt tasks i := by
  unfold set_dispatch
  cases hfind : taskFind tasks a with
  | none => rfl
  | some it =>
    obtain ⟨j, t⟩ := it
    obtain ⟨hget, -⟩ := taskFind_spec hfind
    simp only []
    split_ifs with h1 h2
    · rfl
    · rfl
    · exact statusAt_set_same i hget rfl

theorem claim_task_preserves_terminal {s : String} (hs : s = "completed" ∨ s = "failed")
    (tasks : List Task) (a b c d : String) (i : Nat)
    (h : statusAt tasks i = s) :
    statusAt (claim_task tasks a b c d).2 i = s := by
  unfold claim_task
  cases hfind : taskFind tasks a with
  | none => exact h
  | some it =>
    obtain ⟨j, t⟩ := it
    obtain ⟨hget, -⟩ := taskFind_spec hfind
    simp only []
    by_cases h1 : pyStrip t.status = "completed"
    · rw [if_pos h1]; exact h
    rw [if_neg h1]
    by_cases h2 : pyStrip t.status = "failed"
    · rw [if_pos h2]; exact h
    rw [if_neg h2]
    by_cases h3 : pyStrip t.status = "in_progress"
    · rw [if_pos h3]
      split_ifs
      · exact h
      · exact h
    rw [if_neg h3]
    by_cases h4 : pyStrip t.status ≠ "pending"
    · rw [if_pos h4]; exact h
    rw [if_neg h4]
    by_cases h5 : pyStrip t.owner ≠ "" ∧ pyStrip t.owner ≠ pyStrip b
    · rw [if_pos h5]; exact h
    rw [if_neg h5]
    by_cases h6 : depsMissing tasks t ≠ []
    · rw [if_pos h6]; exact h
    rw [if_neg h6]
    by_cases hij : i = j
    · exfalso
      subst hij
      have hts : t.status = s := by
        rw [statusAt, hget] at h
        simpa using h
      rw [hts, (terminal_strip hs).1] at h4
      rcases hs with h' | h' <;> (subst h'; simp at h4)
    · exact (statusAt_set_other hij).trans h

theorem complete_task_preserves_terminal {s : String} (hs : s = "completed" ∨ s = "failed")
    (tasks : List Task) (a b c d e : String) (i : Nat)
    (h : statusAt tasks i = s) :
    statusAt (complete_task tasks a b c d e).2 i = s := by
  unfold complete_task
  cases hfind : taskFind tasks a with
  | none => exact h
  | some it =>
    obtain ⟨j, t⟩ := it
    obtain ⟨hget, -⟩ := taskFind_spec hfind
    simp only []
    by_cases h1 : pyStrip t.status = "completed"
    · rw [if_pos h1]; exact h
    rw [if_neg h1]
    by_cases h2 : pyStrip t.status ≠ "in_progress"
    · rw [if_pos h2]; exact h
    rw [if_neg h2]
    by_cases h3 : pyStrip t.claimedBy ≠ "" ∧ pyStrip t.claimedBy ≠ pyStrip b
    · rw [if_pos h3]; exact h
    rw [if_neg h3]
    by_cases hij : i = j
    · exfalso
      subst hij
      have hts : t.status = s := by
        rw [statusAt, hget] at h
        simpa using h
      rw [hts, (terminal_strip hs).1] at h2
      rcases hs with h' | h' <;> (subst h'; simp at h2)
    · exact (statusAt_set_other hij).trans h

theorem mark_task_failed_preserves_terminal {s : String} (hs : s = "completed" ∨ s = "failed")
    (tasks : List Task) (a b c : String) (term : Bool) (e : String) (i : Nat)
    (h : statusAt tasks i = s) :
    statusAt (mark_task_failed tasks a b c term e).2 i = s := by
  unfold mark_task_failed
  cases hfind : taskFind tasks a with
  | none => exact h
  | some it =>
    obtain ⟨j, t⟩ := it
    obtain ⟨hget, -⟩ := taskFind_spec hfind
    simp only []
    by_cases h1 : pyStrip t.status = "completed"
    · rw [if_pos h1]; exact h
    rw [if_neg h1]
    by_cases hij : i = j
    · subst hij
      have hts : t.status = s := by
        rw [statusAt, hget] at h
        simpa using h
      have hsf : s = "failed" := by
        rcases hs with h' | h'
        · exfalso
          rw [hts, h', (terminal_strip (Or.inl rfl)).1] at h1
          simp at h1
        · exact h'
      have hlt : i < tasks.length := by
        by_contra hge
        rw [List.getElem?_eq_none (by omega)] at hget
        cases hget
      rw [statusAt, List.getElem?_set_self hlt]
      cases term
      · simpa [failMut] using hts
      · simpa [failMut] using hsf.symm
    · exact (statusAt_set_other hij).trans h

theorem claim_next_preserves_terminal {s : String} (hs : s = "completed" ∨ s = "failed")
    (tasks : List Task) (a b c : String) (i : Nat)
    (h : statusAt tasks i = s) :
    statusAt (claim_next_task tasks a b c).2 i = s := by
  unfold claim_next_task
  simp only []
  rcases hcn : cnLoop tasks (pyStrip a) (insSort taskKeyLe (withIdxFrom 0 tasks))
      "none_available" with ⟨o, reason⟩
  cases o with
  | none => exact h
  | some ju =>
    obtain ⟨j, u⟩ := ju
    obtain ⟨hmem, hpend⟩ := cnLoop_some hcn
    have hmem2 := mem_insSort hmem
    obtain ⟨-, hget⟩ := withIdxFrom_mem hmem2
    simp only [Nat.sub_zero] at hget
    by_cases hij : i = j
    · exfalso
      subst hij
      have hts : u.status = s := by
        rw [statusAt, hget] at h
        simpa using h
      rw [hts, (terminal_strip hs).1] at hpend
      rcases hs with h' | h' <;> (subst h'; simp at hpend)
    · exact (statusAt_set_other hij).trans h

theorem applyOp_preserves_terminal {s : String} (hs : s = "completed" ∨ s = "failed")
    (tasks : List Task) (op : BoardOp) (i : Nat)
    (h : statusAt tasks i = s) :
    statusAt (applyOp tasks op) i = s := by
  cases op with
  | dispatchOp a b c d e f => exact (set_dispatch_preserves_status tasks a b c d e f i).trans h
  | claimOp a b c d => exact claim_task_preserves_terminal hs tasks a b c d i h
  | claimNextOp a b c => exact claim_next_preserves_terminal hs tasks a b c i h
  | completeOp a b c d e => exact complete_task_preserves_terminal hs tasks a b c d e i h
  | failOp a b c d e => exact mark_task_failed_preserves_terminal hs tasks a b c d e i h

end CodexWorktree

namespace CodexWorktree

/-! ### Claim theorems -/

/-- C1 (code_bug evidence): `set_dispatch` has no staleness branch.  On the
scenario of `scripts/tests/test_task_dispatch_redelivery.py` — a fresh task
dispatched once with message id `m1` and then redispatched with `m2` while
no evidence for `m1` exists anywhere and the dispatch-stale TTL is 0 — the
second call returns `ok=false, reason=already_dispatched` and leaves the
board unchanged, although the test asserts the redispatch must succeed. -/
theorem C1_set_dispatch_never_stale :
    (set_dispatch [add_task_value "T1" "hello" "builder-a" "implement" "low" "implement"
        "" "lead" "now0" ["ok"] []] "T1" "lead" "builder-a" "implement" "m1" "now1").1.1 =
      true ∧
    (set_dispatch [add_task_value "T1" "hello" "builder-a" "implement" "low" "implement"
        "" "lead" "now0" ["ok"] []] "T1" "lead" "builder-a" "implement" "m1" "now1").1.2.2 =
      "ok" ∧
    (set_dispatch
        (set_dispatch [add_task_value "T1" "hello" "builder-a" "implement" "low" "implement"
          "" "lead" "now0" ["ok"] []] "T1" "lead" "builder-a" "implement" "m1" "now1").2
        "T1" "lead" "builder-a" "implement" "m2" "now2").1.1 = false ∧
    (set_dispatch
        (set_dispatch [add_task_value "T1" "hello" "builder-a" "implement" "low" "implement"
          "" "lead" "now0" ["ok"] []] "T1" "lead" "builder-a" "implement" "m1" "now1").2
        "T1" "lead" "builder-a" "implement" "m2" "now2").1.2.2 = "already_dispatched" ∧
    (set_dispatch
        (set_dispatch [add_task_value "T1" "hello" "builder-a" "implement" "low" "implement"
          "" "lead" "now0" ["ok"] []] "T1" "lead" "builder-a" "implement" "m1" "now1").2
        "T1" "lead" "builder-a" "implement" "m2" "now2").2 =
      (set_dispatch [add_task_value "T1" "hello" "builder-a" "implement" "low" "implement"
        "" "lead" "now0" ["ok"] []] "T1" "lead" "builder-a" "implement" "m1" "now1").2 := by
  decide

/-- C2: non-terminal failures increment the persisted retry counter, write a
`retry` receipt, and leave the message in the inbox; a counter at 3 or more
before the attempt dead-letters the message with `codex_rc=99` and marks the
bound task failed terminally; so against an always-failing tool a message
produces exactly three `retry` receipts followed by one
`deadletter, codex_rc=99` receipt, ending in `deadletter/<role>/` with the
bound task failed. -/
theorem C2_retry_then_deadletter :
    (∀ (mode role taskId : String) (claimed : Bool) (count : Nat) (toolRc : Int)
        (baseline after : List String),
      count < 3 → toolRc ≠ 0 →
      process_attempt mode role taskId claimed count toolRc baseline after =
        ⟨.retry, toolRc, count + 1, .inbox,
          if taskId ≠ "" ∧ claimed then .nonTerminalFail else .untouched⟩) ∧
    (∀ (mode role taskId : String) (claimed : Bool) (count : Nat) (toolRc : Int)
        (baseline after : List String),
      3 ≤ count →
      process_attempt mode role taskId claimed count toolRc baseline after =
        ⟨.deadletter, 99, count, .deadletter,
          if taskId ≠ "" then .terminalFail else .untouched⟩) ∧
    (∀ (mode role taskId : String) (claimed : Bool) (toolRc : Int)
        (baseline after : List String),
      toolRc ≠ 0 → taskId ≠ "" →
      run_worker mode role taskId claimed toolRc baseline after 4 freshMsg =
        ⟨3, [(.retry, toolRc), (.retry, toolRc), (.retry, toolRc), (.deadletter, 99)],
          .deadletter, .terminalFail⟩) := by
  refine ⟨?_, ?_, ?_⟩
  · intro mode role taskId claimed count toolRc baseline after hc hrc
    unfold process_attempt
    rw [if_neg (by omega), if_pos hrc]
  · intro mode role taskId claimed count toolRc baseline after hc
    unfold process_attempt
    rw [if_pos hc]
  · intro mode role taskId claimed toolRc baseline after hrc htid
    simp only [run_worker, freshMsg, process_attempt]
    norm_num [hrc, htid]

/-- C2 witness: the three general parts instantiated at a concrete message
bound to task `T1` with a tool that always exits 2. -/
theorem C2_retry_then_deadletter_witness :
    process_attempt "enforce" "builder-a" "T1" true 1 2 [] [] =
      ⟨.retry, 2, 2, .inbox, .nonTerminalFail⟩ ∧
    process_attempt "enforce" "builder-a" "T1" true 3 2 [] [] =
      ⟨.deadletter, 99, 3, .deadletter, .terminalFail⟩ ∧
    run_worker "enforce" "builder-a" "T1" true 2 [] [] 4 freshMsg =
      ⟨3, [(.retry, 2), (.retry, 2), (.retry, 2), (.deadletter, 99)],
        .deadletter, .terminalFail⟩ := by
  refine ⟨?_, ?_, ?_⟩
  · exact (C2_retry_then_deadletter.1 "enforce" "builder-a" "T1" true 1 2 [] []
      (by omega) (by decide)).trans (by decide)
  · exact (C2_retry_then_deadletter.2.1 "enforce" "builder-a" "T1" true 3 2 [] []
      (by omega)).trans (by decide)
  · exact (C2_retry_then_deadletter.2.2 "enforce" "builder-a" "T1" true 2 [] []
      (by decide) (by decide))

/-- C3 (counterexample): the claim promises a `deadletter, codex_rc=97`
receipt whenever a non-builder role under `enforce` mode produces a new
worktree path, but when the external tool also exits non-zero (here 1) the
worker takes the retry path instead: the reviewer gains `notes.txt`
(not in the empty baseline) yet the receipt is `retry`, not
`deadletter, codex_rc=97`. -/
theorem C3_boundary_counterexample :
    role_allows_repo_writes "reviewer" = false ∧
    ("notes.txt" ∈ ["notes.txt"] ∧ "notes.txt" ∉ ([] : List String)) ∧
    process_attempt "enforce" "reviewer" "T1" true 0 1 [] ["notes.txt"] =
      ⟨.retry, 1, 1, .inbox, .nonTerminalFail⟩ := by
  decide

/-- C3 (amended): for a non-builder role under mode `enforce`, when the
external tool exits 0 and the post-invocation changed/untracked paths
contain any path absent from the baseline, the attempt dead-letters the
message with `codex_rc=97` and marks the claimed task failed terminally;
builder roles never produce a `deadletter, codex_rc=97` receipt. -/
theorem C3_boundary_enforcement :
    (∀ (mode role taskId : String) (claimed : Bool) (count : Nat)
        (baseline after : List String),
      role_allows_repo_writes role = false → mode = "enforce" → count < 3 →
      (∃ p, p ∈ after ∧ p ∉ baseline) →
      process_attempt mode role taskId claimed count 0 baseline after =
        ⟨.deadletter, 97, count, .deadletter,
          if taskId ≠ "" ∧ claimed then .terminalFail else .untouched⟩) ∧
    (∀ (mode role taskId : String) (claimed : Bool) (count : Nat) (toolRc : Int)
        (baseline after : List String),
      role_allows_repo_writes role = true →
      ((process_attempt mode role taskId claimed count toolRc baseline after).receiptStatus,
        (process_attempt mode role taskId claimed count toolRc baseline after).receiptRc) ≠
        ((.deadletter : ReceiptStatus), (97 : Int))) := by
  constructor
  · intro mode role taskId claimed count baseline after hrole hmode hc hex
    obtain ⟨p, hpa, hpb⟩ := hex
    subst hmode
    have hviol : (enforce_role_boundary "enforce" role baseline after).1 = false := by
      unfold enforce_role_boundary
      rw [if_neg (by decide), if_neg (by simp [hrole])]
      have hmem : p ∈ (after.filter (fun q => ¬ baseline.contains q)).dedup := by
        rw [List.mem_dedup, List.mem_filter]
        refine ⟨hpa, by simpa using hpb⟩
      have hne : insSort (fun a b => decide (a < b) || a = b)
          ((after.filter (fun q => ¬ baseline.contains q)).dedup) ≠ [] := by
        rw [ne_eq, insSort_eq_nil_iff]
        exact List.ne_nil_of_mem hmem
      rw [if_neg hne, if_pos (by decide)]
    unfold process_attempt
    rw [if_neg (by omega), if_neg (by simp),
      if_pos (by exact ⟨by simp [hrole], by decide, by simp [hviol]⟩)]
  · intro mode role taskId claimed count toolRc baseline after hrole
    unfold process_attempt
    split_ifs <;> simp_all

/-- C3 witness: the amended statement at the scenario of the spec's
role-boundary test (reviewer creates `notes.txt`, tool exits 0), plus the
builder part at a builder-a attempt. -/
theorem C3_boundary_enforcement_witness :
    process_attempt "enforce" "reviewer" "T1" true 0 0 [] ["notes.txt"] =
      ⟨.deadletter, 97, 0, .deadletter, .terminalFail⟩ ∧
    ((process_attempt "enforce" "builder-a" "T1" true 0 0 [] ["notes.txt"]).receiptStatus,
      (process_attempt "enforce" "builder-a" "T1" true 0 0 [] ["notes.txt"]).receiptRc) ≠
      ((.deadletter : ReceiptStatus), (97 : Int)) := by
  refine ⟨?_, ?_⟩
  · exact (C3_boundary_enforcement.1 "enforce" "reviewer" "T1" true 0 [] ["notes.txt"]
      (by decide) rfl (by omega) ⟨"notes.txt", by decide⟩).trans (by decide)
  · exact C3_boundary_enforcement.2 "enforce" "builder-a" "T1" true 0 0 [] ["notes.txt"]
      (by decide)

/-- C4: for every task-board state and every sequence of the five mutating
operations, a task whose status is `completed` keeps status `completed`,
and a task whose status is `failed` keeps status `failed`. -/
theorem C4_terminal_statuses :
    ∀ (s : String), (s = "completed" ∨ s = "failed") →
    ∀ (tasks : List Task) (i : Nat), statusAt tasks i = s →
    ∀ (ops : List BoardOp), statusAt (applyOps tasks ops) i = s := by
  intro s hs tasks i h ops
  induction ops generalizing tasks with
  | nil => exact h
  | cons op rest ih =>
    rw [applyOps, List.foldl_cons]
    exact ih _ (applyOp_preserves_terminal hs tasks op i h)

/-- C4 witness: a board with one completed and one failed task run through
one operation of each kind. -/
theorem C4_terminal_statuses_witness :
    statusAt (applyOps [{ id := "A", status := "completed" }, { id := "B", status := "failed" }]
      [.claimOp "A" "lead" "" "n1", .claimNextOp "lead" "" "n2",
        .completeOp "B" "lead" "" "" "n3", .failOp "A" "lead" "e" true "n4",
        .dispatchOp "B" "lead" "builder-a" "implement" "m9" "n5"]) 0 = "completed" ∧
    statusAt (applyOps [{ id := "A", status := "completed" }, { id := "B", status := "failed" }]
      [.claimOp "A" "lead" "" "n1", .claimNextOp "lead" "" "n2",
        .completeOp "B" "lead" "" "" "n3", .failOp "A" "lead" "e" true "n4",
        .dispatchOp "B" "lead" "builder-a" "implement" "m9" "n5"]) 1 = "failed" := by
  constructor
  · exact C4_terminal_statuses "completed" (Or.inl rfl) _ 0 (by decide) _
  · exact C4_terminal_statuses "failed" (Or.inr rfl) _ 1 (by decide) _

/-- C9: when a task is `in_progress` with an empty `claimed_by`,
`complete_task` succeeds for any role and records that role as
`completed_by` (the claimer guard only applies to a non-empty
`claimed_by`). -/
theorem C9_complete_unclaimed_in_progress :
    ∀ (tasks : List Task) (i : Nat) (t : Task) (taskId R ev rf now : String),
    taskFind tasks taskId = some (i, t) →
    pyStrip t.status = "in_progress" →
    pyStrip t.claimedBy = "" →
    ∃ t', (complete_task tasks taskId R ev rf now).1 = (true, some t', "completed") ∧
      t'.status = "completed" ∧ t'.completedBy = pyStrip R := by
  intro tasks i t taskId R ev rf now hfind hst hcb
  refine ⟨completeMut t (pyStrip R) ev rf now, ?_, rfl, rfl⟩
  unfold complete_task
  rw [hfind]
  simp only [hst, hcb]
  rw [if_neg (by decide), if_neg (by decide), if_neg (by simp)]

/-- C9 witness: a reviewer completes an `in_progress` task that nobody
claims. -/
theorem C9_complete_unclaimed_in_progress_witness :
    ∃ t', (complete_task [{ id := "T1", status := "in_progress", claimedBy := "" }]
        "T1" "reviewer" "" "" "n1").1 = (true, some t', "completed") ∧
      t'.status = "completed" ∧ t'.completedBy = pyStrip "reviewer" :=
  C9_complete_unclaimed_in_progress
    [{ id := "T1", status := "in_progress", claimedBy := "" }] 0
    { id := "T1", status := "in_progress", claimedBy := "" } "T1" "reviewer" "" "" "n1"
    (by decide) (by decide) (by decide)

/-- C5: claiming a pending task owned by role `R` with satisfied
dependencies and then completing it yields a `completed` task whose history
gained exactly two entries, `claimed` then `completed`, in that order. -/
theorem C5_claim_then_complete :
    ∀ (tasks : List Task) (i : Nat) (t : Task) (taskId R now1 now2 : String),
    taskFind tasks taskId = some (i, t) →
    pyStrip t.status = "pending" →
    pyStrip t.owner = pyStrip R →
    depsMissing tasks t = [] →
    ∃ t1 t2,
      (claim_task tasks taskId R "" now1).1 = (true, some t1, "claimed") ∧
      (complete_task (claim_task tasks taskId R "" now1).2 taskId R "" "" now2).1 =
        (true, some t2, "completed") ∧
      t2.status = "completed" ∧
      t2.history = t.history ++
        [⟨now1, "claimed", pyStrip R, none⟩, ⟨now2, "completed", pyStrip R, none⟩] := by
  intro tasks i t taskId R now1 now2 hfind hst howner hdeps
  have hempty : pyStrip "" = "" := by decide
  have hclaim : claim_task tasks taskId R "" now1 =
      ((true, some (claimMut t (pyStrip R) "" now1), "claimed"),
        tasks.set i (claimMut t (pyStrip R) "" now1)) := by
    unfold claim_task
    rw [hfind]
    simp only []
    rw [hst, if_neg (by decide), if_neg (by decide), if_neg (by decide),
      if_neg (by decide), if_neg (by simp [howner]), if_neg (by simp [hdeps])]
  have hfind2 : taskFind (claim_task tasks taskId R "" now1).2 taskId =
      some (i, claimMut t (pyStrip R) "" now1) := by
    rw [congrArg Prod.snd hclaim]
    exact taskFind_set hfind rfl
  have hs1 : pyStrip (claimMut t (pyStrip R) "" now1).status = "in_progress" := by
    rw [show (claimMut t (pyStrip R) "" now1).status = "in_progress" from rfl]
    decide
  have hcb : pyStrip (claimMut t (pyStrip R) "" now1).claimedBy = pyStrip R :=
    pyStrip_idem R
  have hcomp : (complete_task (claim_task tasks taskId R "" now1).2 taskId R "" "" now2).1 =
      (true, some (completeMut (claimMut t (pyStrip R) "" now1) (pyStrip R) "" "" now2),
        "completed") := by
    unfold complete_task
    rw [hfind2]
    simp only [hs1, hcb]
    rw [if_neg (by decide), if_neg (by decide), if_neg (by simp)]
  refine ⟨claimMut t (pyStrip R) "" now1,
    completeMut (claimMut t (pyStrip R) "" now1) (pyStrip R) "" "" now2, ?_, hcomp, rfl, ?_⟩
  · rw [hclaim]
  · simp [claimMut, completeMut, histAppend, hempty]

/-- C5 witness: a pending builder-a task with no dependencies claimed and
completed by builder-a. -/
theorem C5_claim_then_complete_witness :
    ∃ t1 t2,
      (claim_task [{ id := "T1", status := "pending", owner := "builder-a" }]
        "T1" "builder-a" "" "n1").1 = (true, some t1, "claimed") ∧
      (complete_task (claim_task [{ id := "T1", status := "pending", owner := "builder-a" }]
        "T1" "builder-a" "" "n1").2 "T1" "builder-a" "" "" "n2").1 =
        (true, some t2, "completed") ∧
      t2.status = "completed" ∧
      t2.history = ({ id := "T1", status := "pending", owner := "builder-a" } : Task).history ++
        [⟨"n1", "claimed", pyStrip "builder-a", none⟩,
          ⟨"n2", "completed", pyStrip "builder-a", none⟩] :=
  C5_claim_then_complete [{ id := "T1", status := "pending", owner := "builder-a" }] 0
    { id := "T1", status := "pending", owner := "builder-a" } "T1" "builder-a" "n1" "n2"
    (by decide) (by decide) (by decide) (by decide)

end CodexWorktree

namespace CodexWorktree

/-! ### Splitlines / join infrastructure for the frontmatter codec -/

theorem segsAux_ne_nil (cs : List Char) : segsAux cs ≠ [] := by
  cases cs with
  | nil => simp [segsAux]
  | cons c r =>
    rw [segsAux]
    split <;> simp

theorem joinChars_segsAux (cs : List Char) : joinChars (segsAux cs) = cs := by
  induction cs with
  | nil => rfl
  | cons c r ih =>
    rw [segsAux]
    rcases hs : segsAux r with - | ⟨h1, t⟩
    · exact absurd hs (segsAux_ne_nil r)
    · rw [hs] at ih
      by_cases hc : c = '\n'
      · rw [if_pos hc, hc]
        cases t <;> simp_all [joinChars]
      · rw [if_neg hc]
        cases t <;> simp_all [joinChars]

theorem segsAux_mem_noNL {cs : List Char} {seg : List Char}
    (h : seg ∈ segsAux cs) : '\n' ∉ seg := by
  induction cs generalizing seg with
  | nil =>
    simp only [segsAux, List.mem_singleton] at h
    simp [h]
  | cons c r ih =>
    rw [segsAux] at h
    by_cases hc : c = '\n'
    · rw [if_pos hc] at h
      rcases List.mem_cons.mp h with h | h
      · simp [h]
      · exact ih h
    · rw [if_neg hc] at h
      rcases hs : segsAux r with - | ⟨h1, t⟩
      · exact absurd hs (segsAux_ne_nil r)
      · rw [hs] at h
        simp only [List.headD_cons, List.tail_cons] at h
        rcases List.mem_cons.mp h with h | h
        · subst h
          intro hmem
          rcases List.mem_cons.mp hmem with h | h
          · exact hc h.symm
          · exact ih (by rw [hs]; exact List.mem_cons_self h1 t) h
        · exact ih (by rw [hs]; exact List.mem_cons_of_mem h1 h)

theorem segsAux_of_noNL {xs : List Char} (h : '\n' ∉ xs) : segsAux xs = [xs] := by
  induction xs with
  | nil => rfl
  | cons c r ih =>
    have hc : c ≠ '\n' := fun he => h (he ▸ List.mem_cons_self c r)
    have hr : '\n' ∉ r := fun hm => h (List.mem_cons_of_mem c hm)
    rw [segsAux, if_neg hc, ih hr]
    simp

theorem segsAux_append_nl {xs : List Char} (ys : List Char) (h : '\n' ∉ xs) :
    segsAux (xs ++ '\n' :: ys) = xs :: segsAux ys := by
  induction xs with
  | nil =>
    rw [List.nil_append, segsAux, if_pos rfl]
  | cons c r ih =>
    have hc : c ≠ '\n' := fun he => h (he ▸ List.mem_cons_self c r)
    have hr : '\n' ∉ r := fun hm => h (List.mem_cons_of_mem c hm)
    rw [List.cons_append, segsAux, if_neg hc, ih hr]
    simp

theorem joinNL_data (L : List String) : (joinNL L).data = joinChars (L.map String.data) := by
  induction L with
  | nil => rfl
  | cons x L ih =>
    cases L with
    | nil => rfl
    | cons y r =>
      rw [joinNL, List.map_cons, List.map_cons, joinChars, ← List.map_cons, ← ih]
      simp [String.data_append]

theorem pySegs_joinNL {M : List String} (hne : M ≠ [])
    (hnl : ∀ x ∈ M, '\n' ∉ x.data) : pySegs (joinNL M) = M := by
  have hdata : segsAux (joinNL M).data = M.map String.data := by
    rw [joinNL_data]
    induction M with
    | nil => simp at hne
    | cons x L ih =>
      cases L with
      | nil =>
        simp only [List.map_cons, List.map_nil, joinChars]
        exact segsAux_of_noNL (hnl x (List.mem_cons_self x []))
      | cons y r =>
        rw [List.map_cons, List.map_cons, joinChars, ← List.map_cons]
        rw [segsAux_append_nl _ (hnl x (List.mem_cons_self x (y :: r)))]
        rw [show joinChars ((y :: r).map String.data) = (joinNL (y :: r)).data from
          (joinNL_data (y :: r)).symm]
        rw [joinNL_data, ih (by simp) (fun z hz => hnl z (List.mem_cons_of_mem x hz))]
  rw [pySegs, hdata]
  rw [List.map_map]
  have : (String.mk ∘ String.data) = id := by
    funext s
    rfl
  rw [this, List.map_id]

theorem pySplitlines_joinNL {M : List String} (hne : M ≠ [])
    (hnl : ∀ x ∈ M, '\n' ∉ x.data) :
    pySplitlines (joinNL M) = if M.getLast? = some "" then M.dropLast else M := by
  rw [pySplitlines, pySegs_joinNL hne hnl]

theorem joinNL_pySegs (s : String) : joinNL (pySegs s) = s := by
  have h1 : (joinNL (pySegs s)).data = s.data := by
    rw [joinNL_data, pySegs, List.map_map]
    have : (String.data ∘ fun l => (⟨l⟩ : String)) = id := by
      funext l
      rfl
    rw [this, List.map_id, joinChars_segsAux]
  exact String.ext h1

theorem joinNL_append {A B : List String} (ha : A ≠ []) (hb : B ≠ []) :
    joinNL (A ++ B) = joinNL A ++ "\n" ++ joinNL B := by
  induction A with
  | nil => simp at ha
  | cons x A ih =>
    cases A with
    | nil =>
      cases B with
      | nil => simp at hb
      | cons y r => rw [List.cons_append, List.nil_append, joinNL, joinNL]
    | cons z A' =>
      rw [List.cons_append, List.cons_append, joinNL, ← List.cons_append,
        ih (by simp), joinNL]
      simp [String.append_assoc]

theorem pySegs_ne_nil (s : String) : pySegs s ≠ [] := by
  rw [pySegs]
  intro h
  exact segsAux_ne_nil s.data (by simpa using h)

theorem pySegs_mem_noNL {s : String} {x : String} (h : x ∈ pySegs s) : '\n' ∉ x.data := by
  rw [pySegs] at h
  obtain ⟨seg, hseg, hx⟩ := List.mem_map.mp h
  subst hx
  exact segsAux_mem_noNL hseg

/-! ### fmLoop shape lemmas -/

theorem fmLoop_eq_none_iff (ls : List String) (fm : FmDict) (ck : Option String) :
    fmLoop ls fm ck = none ↔ ∀ l ∈ ls, pyStrip l ≠ "---" := by
  induction ls generalizing fm ck with
  | nil => simp [fmLoop]
  | cons line rest ih =>
    rw [fmLoop]
    by_cases h1 : pyStrip line = "---"
    · rw [if_pos h1]
      simp [h1]
    · rw [if_neg h1]
      by_cases h2 : isPre "  - ".data line.data ∧ ck.isSome
      · rw [if_pos h2]
        simp only [ih]
        constructor
        · intro hall l hl
          rcases List.mem_cons.mp hl with h | h
          · subst h; exact h1
          · exact hall l h
        · intro hall l hl
          exact hall l (List.mem_cons_of_mem _ hl)
      · rw [if_neg h2]
        rcases hk : keyMatch line with - | ⟨k, v⟩
        · simp only [ih]
          constructor
          · intro hall l hl
            rcases List.mem_cons.mp hl with h | h
            · subst h; exact h1
            · exact hall l h
          · intro hall l hl
            exact hall l (List.mem_cons_of_mem _ hl)
        · simp only [ih]
          constructor
          · intro hall l hl
            rcases List.mem_cons.mp hl with h | h
            · subst h; exact h1
            · exact hall l h
          · intro hall l hl
            exact hall l (List.mem_cons_of_mem _ hl)

theorem fmLoop_some_structure {ls : List String} {fm : FmDict} {ck : Option String}
    {fm' : FmDict} {rest : List String}
    (h : fmLoop ls fm ck = some (fm', rest)) :
    ∃ pre m, ls = pre ++ m :: rest ∧ pyStrip m = "---" := by
  induction ls generalizing fm ck with
  | nil => simp [fmLoop] at h
  | cons line tail ih =>
    rw [fmLoop] at h
    by_cases h1 : pyStrip line = "---"
    · rw [if_pos h1] at h
      simp only [Option.some.injEq, Prod.mk.injEq] at h
      exact ⟨[], line, by simp [h.2], h1⟩
    · rw [if_neg h1] at h
      by_cases h2 : isPre "  - ".data line.data ∧ ck.isSome
      · rw [if_pos h2] at h
        obtain ⟨pre, m, he, hm⟩ := ih h
        exact ⟨line :: pre, m, by simp [he], hm⟩
      · rw [if_neg h2] at h
        rcases hk : keyMatch line with - | ⟨k, v⟩ <;> rw [hk] at h
        · obtain ⟨pre, m, he, hm⟩ := ih h
          exact ⟨line :: pre, m, by simp [he], hm⟩
        · obtain ⟨pre, m, he, hm⟩ := ih h
          exact ⟨line :: pre, m, by simp [he], hm⟩

end CodexWorktree

namespace CodexWorktree

/-! ### Length lemmas for the parser characterization -/

theorem stripList_length_le (l : List Char) : (stripList l).length ≤ l.length := by
  unfold stripList
  have h1 := length_dropWhile_le' isPyWs l
  have h2 := length_dropWhile_le' isPyWs (l.dropWhile isPyWs).reverse
  simp only [List.length_reverse] at h2 ⊢
  omega

theorem pyStrip_length_le (s : String) : (pyStrip s).length ≤ s.length :=
  stripList_length_le s.data

theorem pyLstripNL_length_le (s : String) : (pyLstripNL s).length ≤ s.length :=
  length_dropWhile_le' _ s.data

theorem length_of_strip_dashes {s : String} (h : pyStrip s = "---") : 3 ≤ s.length := by
  have h1 : (pyStrip s).length = 3 := by rw [h]; rfl
  have h2 := pyStrip_length_le s
  omega

theorem joinNL_length_cons_cons (x y : String) (r : List String) :
    (joinNL (x :: y :: r)).length = x.length + 1 + (joinNL (y :: r)).length := by
  rw [joinNL, String.length_append, String.length_append]
  have h1 : ("\n" : String).length = 1 := rfl
  omega

theorem joinNL_length_le_append (A B : List String) :
    (joinNL B).length ≤ (joinNL (A ++ B)).length := by
  induction A with
  | nil => simp
  | cons a A' ih =>
    rcases hab : A' ++ B with - | ⟨z, t⟩
    · have : B = [] := by
        rcases List.append_eq_nil.mp hab with ⟨-, h⟩
        exact h
      simp [this, joinNL]
    · rw [List.cons_append, hab, joinNL_length_cons_cons, ← hab]
      omega

theorem joinNL_pySplitlines_length_le (s : String) :
    (joinNL (pySplitlines s)).length ≤ s.length := by
  rw [pySplitlines]
  split_ifs with h
  · obtain ⟨A, hA⟩ : ∃ A, pySegs s = A ++ [""] := by
      have hne : pySegs s ≠ [] := pySegs_ne_nil s
      refine ⟨(pySegs s).dropLast, ?_⟩
      have hgl2 : (pySegs s).getLast hne = "" :=
        (List.getLast_eq_iff_getLast?_eq_some hne).mpr h
      rw [← hgl2]
      exact (List.dropLast_concat_getLast hne).symm
    have hs : s.length = (joinNL (pySegs s)).length :=
      congrArg String.length (joinNL_pySegs s).symm
    rw [hA] at hs
    rw [hA, List.dropLast_concat]
    cases A with
    | nil => simp [joinNL]
    | cons a0 A2 =>
      have hlen2 : (joinNL ((a0 :: A2) ++ [""])).length = (joinNL (a0 :: A2)).length + 1 := by
        rw [joinNL_append (by simp) (by simp), String.length_append, String.length_append]
        have h1 : ("\n" : String).length = 1 := rfl
        have h2 : ("" : String).length = 0 := rfl
        simp [joinNL, h1, h2]
      omega
  · rw [joinNL_pySegs]

/-! ### Parser characterization helpers -/

theorem parse_frontmatter_no_closing {md : String}
    (hall : ∀ l ∈ (pySplitlines md).drop 1, pyStrip l ≠ "---") :
    parse_frontmatter md = ([], md) := by
  unfold parse_frontmatter
  simp only []
  split_ifs with h1 h2
  · rfl
  · rfl
  · rw [(fmLoop_eq_none_iff _ [] none).mpr hall]

theorem parse_frontmatter_closing_ne {md : String}
    (hlen : ¬ (pySplitlines md).length < 3)
    (hhead : pyStrip ((pySplitlines md).headD "") = "---")
    (hcl : ¬ ∀ l ∈ (pySplitlines md).drop 1, pyStrip l ≠ "---") :
    parse_frontmatter md ≠ ([], md) := by
  unfold parse_frontmatter
  simp only []
  rw [if_neg hlen, if_neg (by simpa using hhead)]
  rcases hloop : fmLoop ((pySplitlines md).drop 1) [] none with - | ⟨fm, rest⟩
  · exact absurd ((fmLoop_eq_none_iff _ [] none).mp hloop) hcl
  · intro heq
    simp only [Prod.mk.injEq] at heq
    obtain ⟨-, hbody⟩ := heq
    obtain ⟨pre, m, hsplit, hm⟩ := fmLoop_some_structure hloop
    rcases hlines : pySplitlines md with - | ⟨l0, tail⟩
    · rw [hlines] at hlen
      simp at hlen
    · have hl0 : pyStrip l0 = "---" := by
        rw [hlines] at hhead
        simpa using hhead
      have htail : tail = pre ++ m :: rest := by
        rw [hlines] at hsplit
        simpa using hsplit
      have hbl : (pyLstripNL (joinNL rest)).length ≤ (joinNL rest).length :=
        pyLstripNL_length_le _
      have h1 : (joinNL (m :: rest)).length ≤ (joinNL (pre ++ m :: rest)).length :=
        joinNL_length_le_append pre _
      have h2 : 3 + (joinNL rest).length ≤ (joinNL (m :: rest)).length := by
        rcases rest with - | ⟨r0, rest'⟩
        · have := length_of_strip_dashes hm
          simp [joinNL]
          omega
        · rw [joinNL_length_cons_cons]
          have := length_of_strip_dashes hm
          omega
      have h3 : (joinNL (pySplitlines md)).length =
          l0.length + 1 + (joinNL tail).length := by
        rw [hlines, htail]
        rcases hpre : pre ++ m :: rest with - | ⟨z, zs⟩
        · simp at hpre
        · rw [joinNL_length_cons_cons]
      have h4 := joinNL_pySplitlines_length_le md
      have h5 := length_of_strip_dashes hl0
      have hmd : md.length = (pyLstripNL (joinNL rest)).length := by
        rw [hbody]
      rw [htail] at h3
      omega

end CodexWorktree

namespace CodexWorktree

/-- C6 (counterexample): an input whose first non-empty line is the opening
delimiter `---` (after one leading blank line) is still rejected — the
parser checks the literal first line, not the first non-empty line — so
"returns empty header + raw body exactly when the first non-empty line is
not the opening delimiter" is false in both directions. -/
theorem C6_first_nonempty_counterexample :
    ((pySplitlines "\n---\na: b\n---\nx").find? (fun l => l ≠ "")) = some "---" ∧
    parse_frontmatter "\n---\na: b\n---\nx" = ([], "\n---\na: b\n---\nx") := by
  decide

/-- C6 (amended): the parser returns the empty header together with the raw
input as body exactly when the input has fewer than 3 lines, or its first
line does not strip to `---`, or no line after the first strips to `---`
(no closing delimiter); otherwise the input is parsed into a header block
and a strictly shorter body. -/
theorem C6_reject_iff :
    ∀ md : String,
      parse_frontmatter md = ([], md) ↔
        ((pySplitlines md).length < 3 ∨
          pyStrip ((pySplitlines md).headD "") ≠ "---" ∨
          ∀ l ∈ (pySplitlines md).drop 1, pyStrip l ≠ "---") := by
  intro md
  constructor
  · intro h
    by_contra hc
    rw [not_or, not_or] at hc
    obtain ⟨h1, h2, h3⟩ := hc
    exact parse_frontmatter_closing_ne h1 (not_not.mp h2) h3 h
  · intro h
    rcases h with h | h | h
    · unfold parse_frontmatter
      simp only []
      rw [if_pos h]
    · unfold parse_frontmatter
      simp only []
      split_ifs with h1
      · rfl
      · rfl
    · exact parse_frontmatter_no_closing h

/-- C6 witness: both directions at concrete inputs — a two-line input is
rejected, and a well-formed three-line envelope is not rejected. -/
theorem C6_reject_iff_witness :
    parse_frontmatter "---\nk: v" = ([], "---\nk: v") ∧
    ¬ parse_frontmatter "---\nk: v\n---" = ([], "---\nk: v\n---") :=
  ⟨(C6_reject_iff "---\nk: v").mpr (by decide),
    fun h => by
      have h2 := (C6_reject_iff "---\nk: v\n---").mp h
      revert h2
      decide⟩

/-- C10: an input that begins with the opening delimiter but has no closing
delimiter line is rejected wholesale — the parser returns an empty header
and the entire original text, discarding any partially parsed keys. -/
theorem C10_no_closing_returns_raw :
    ∀ md : String,
      pyStrip ((pySplitlines md).headD "") = "---" →
      (∀ l ∈ (pySplitlines md).drop 1, pyStrip l ≠ "---") →
      parse_frontmatter md = ([], md) := by
  intro md h1 h2
  exact parse_frontmatter_no_closing h2

/-- C10 witness: a text opening with `---` and containing two key lines but
no closing delimiter comes back verbatim with an empty header. -/
theorem C10_no_closing_returns_raw_witness :
    parse_frontmatter "---\na: b\nc: d" = ([], "---\na: b\nc: d") :=
  C10_no_closing_returns_raw "---\na: b\nc: d" (by decide) (by decide)

end CodexWorktree

namespace CodexWorktree

/-- C8: a receipt whose frontmatter carries `request_from == "router"` is
marked processed (the sentinel becomes the content hash) and produces no
inbox message — neither a directive dispatch nor a forwarded receipt — and
a subsequent run over the unchanged file (sentinel already equal to the
hash) does nothing.  Stated for every content-hash function, so nothing
depends on SHA-256 itself beyond determinism. -/
theorem C8_router_receipt_loop_prevention :
    ∀ (hash : String → String) (roles : List String)
      (sessionName receiptStem receiptPathStr raw : String) (stored : Option String),
    pyStrip (fmGetStr (parse_frontmatter raw).1 "request_from" "") = "router" →
    (stored.getD "" ≠ hash raw →
      process_receipt hash roles sessionName receiptStem receiptPathStr stored raw =
        ⟨some (hash raw), [], true⟩) ∧
    process_receipt hash roles sessionName receiptStem receiptPathStr
        (some (hash raw)) raw =
      ⟨some (hash raw), [], false⟩ := by
  intro hash roles sessionName receiptStem receiptPathStr raw stored hreq
  constructor
  · intro hne
    unfold process_receipt
    simp only []
    rw [if_neg hne, if_pos hreq]
  · unfold process_receipt
    simp

/-- C8 witness: a concrete router-originated receipt under a concrete
injective-enough hash, run twice. -/
theorem C8_router_receipt_loop_prevention_witness :
    process_receipt (fun s => "H" ++ s) ["lead", "builder-a"] "sid" "m1.builder-a" "p"
        none "---\nid: m1\nrole: builder-a\nrequest_from: \"router\"\nstatus: done\n---\nok" =
      ⟨some ("H" ++ "---\nid: m1\nrole: builder-a\nrequest_from: \"router\"\nstatus: done\n---\nok"),
        [], true⟩ ∧
    process_receipt (fun s => "H" ++ s) ["lead", "builder-a"] "sid" "m1.builder-a" "p"
        (some ("H" ++ "---\nid: m1\nrole: builder-a\nrequest_from: \"router\"\nstatus: done\n---\nok"))
        "---\nid: m1\nrole: builder-a\nrequest_from: \"router\"\nstatus: done\n---\nok" =
      ⟨some ("H" ++ "---\nid: m1\nrole: builder-a\nrequest_from: \"router\"\nstatus: done\n---\nok"),
        [], false⟩ :=
  ⟨(C8_router_receipt_loop_prevention (fun s => "H" ++ s) ["lead", "builder-a"] "sid"
      "m1.builder-a" "p"
      "---\nid: m1\nrole: builder-a\nrequest_from: \"router\"\nstatus: done\n---\nok"
      none (by decide)).1 (by decide),
    (C8_router_receipt_loop_prevention (fun s => "H" ++ s) ["lead", "builder-a"] "sid"
      "m1.builder-a" "p"
      "---\nid: m1\nrole: builder-a\nrequest_from: \"router\"\nstatus: done\n---\nok"
      none (by decide)).2⟩

end CodexWorktree

namespace CodexWorktree

/-! ### Round trip of the message envelope codec -/

theorem stripList_cons_ws {c : Char} {l : List Char} (h : isPyWs c = true) :
    stripList (c :: l) = stripList l := by
  rw [stripList, stripList, List.dropWhile_cons_of_pos h]

theorem pyStrip_cons_ws {c : Char} {l : List Char} (h : isPyWs c = true) :
    pyStrip ⟨c :: l⟩ = pyStrip ⟨l⟩ :=
  congrArg String.mk (stripList_cons_ws h)

theorem dropWhile_concat_neg {p : α → Bool} {c : α} (h : p c = false) (l : List α) :
    (l ++ [c]).dropWhile p = l.dropWhile p ++ [c] := by
  rw [List.dropWhile_append]
  by_cases he : (l.dropWhile p).isEmpty
  · rw [if_pos he, List.isEmpty_iff.mp he, List.dropWhile_cons_of_neg (by simp [h])]
    simp
  · rw [if_neg he]

theorem stripList_cons_of_ends {c : Char} {l : List Char} (hc : isPyWs c = false)
    (hl : l = [] ∨ ∃ l2 d, l = l2 ++ [d] ∧ isPyWs d = false) :
    stripList (c :: l) = c :: l := by
  rw [stripList, List.dropWhile_cons_of_neg (by simp [hc])]
  rcases hl with rfl | ⟨l2, d, rfl, hd⟩
  · simp [hc]
  · have h1 : (c :: (l2 ++ [d])).reverse = d :: (l2.reverse ++ [c]) := by simp
    rw [h1, List.dropWhile_cons_of_neg (by simp [hd]), ← h1, List.reverse_reverse]

theorem stripList_quoted (a : List Char) :
    stripList ('"' :: (a ++ ['"'])) = '"' :: (a ++ ['"']) :=
  stripList_cons_of_ends (by decide) (Or.inr ⟨a, '"', rfl, by decide⟩)

theorem stripList_head_cons {c : Char} {r : List Char} (hw : isPyWs c = false) :
    stripList (c :: r) = c :: (r.reverse.dropWhile isPyWs).reverse := by
  rw [stripList, List.dropWhile_cons_of_neg (by simp [hw]), List.reverse_cons,
    dropWhile_concat_neg hw]
  simp

theorem pyStrip_head_ne_dashes {line : String} {c : Char} {r : List Char}
    (hld : line.data = c :: r) (hw : isPyWs c = false) (hc : c ≠ '-') :
    pyStrip line ≠ "---" := by
  intro he
  have h2 : stripList line.data = "---".data := congrArg String.data he
  rw [hld, stripList_head_cons hw,
    show ("---" : String).data = ['-', '-', '-'] from rfl] at h2
  injection h2 with h3 _
  exact hc h3

theorem isPre_cons_false {c : Char} {r pr : List Char} {d : Char} (h : d ≠ c) :
    isPre (d :: pr) (c :: r) = false := by
  rw [isPre]
  simp [h]

theorem keySplit_append {kd : List Char} (rest : List Char) (h : ':' ∉ kd) :
    keySplit (kd ++ ':' :: rest) = some (kd, rest) := by
  induction kd with
  | nil => rw [List.nil_append, keySplit, if_pos rfl]
  | cons c k ih =>
    rw [List.mem_cons] at h
    have hc : c ≠ ':' := fun he => h (Or.inl he.symm)
    have hk : ':' ∉ k := fun hm => h (Or.inr hm)
    rw [List.cons_append, keySplit, if_neg hc, ih hk]

theorem no_colon_of_all_keyChar {l : List Char} (h : l.all isKeyChar = true) :
    ':' ∉ l := by
  intro hm
  exact absurd (List.all_eq_true.mp h ':' hm) (by decide)

theorem keyMatch_mk {line k : String} {rdata : List Char}
    (hline : line.data = k.data ++ ':' :: rdata)
    (hk1 : k.data ≠ []) (hk2 : k.data.all isKeyChar = true) :
    keyMatch line = some (k, pyStripQuotes (pyStrip ⟨rdata⟩)) := by
  rw [keyMatch, hline, keySplit_append rdata (no_colon_of_all_keyChar hk2)]
  show (if k.data ≠ [] ∧ k.data.all isKeyChar = true then
      some ((⟨k.data⟩ : String), pyStripQuotes (pyStrip ⟨rdata⟩)) else none) =
    some (k, pyStripQuotes (pyStrip ⟨rdata⟩))
  rw [if_pos ⟨hk1, hk2⟩]

theorem dictGet_dictSet_self (d : FmDict) (k : String) (v : FmVal) :
    dictGet (dictSet d k v) k = some v := by
  induction d with
  | nil => rw [dictSet, dictGet, if_pos rfl]
  | cons p rest ih =>
    obtain ⟨k1, v1⟩ := p
    rw [dictSet]
    by_cases h : k1 = k
    · rw [if_pos h, dictGet, if_pos rfl]
    · rw [if_neg h, dictGet, if_neg h, ih]

theorem dictSet_dictSet_self (d : FmDict) (k : String) (v w : FmVal) :
    dictSet (dictSet d k v) k w = dictSet d k w := by
  induction d with
  | nil => simp [dictSet]
  | cons p rest ih =>
    obtain ⟨k1, v1⟩ := p
    rw [dictSet]
    by_cases h : k1 = k
    · rw [if_pos h, dictSet, if_pos rfl, dictSet, if_pos h]
    · rw [if_neg h, dictSet, if_neg h, dictSet, if_neg h, ih]

theorem dictSet_eq_self {d : FmDict} {k : String} {v : FmVal}
    (h : dictGet d k = some v) : dictSet d k v = d := by
  induction d with
  | nil => exact absurd h (by rw [dictGet]; exact Option.noConfusion)
  | cons p rest ih =>
    obtain ⟨k1, v1⟩ := p
    rw [dictGet] at h
    rw [dictSet]
    by_cases hk : k1 = k
    · rw [if_pos hk] at h
      injection h with h2
      rw [if_pos hk, ← hk, ← h2]
    · rw [if_neg hk] at h
      rw [if_neg hk, ih h]

theorem fmLoop_scalar_step {line k : String} {rdata : List Char}
    {rest : List String} {fm : FmDict} {ck : Option String}
    (hline : line.data = k.data ++ ':' :: rdata)
    (hk1 : k.data ≠ []) (hk2 : k.data.all isKeyChar = true)
    (hk3 : ∃ c t, k.data = c :: t ∧ isPyWs c = false ∧ c ≠ '-') :
    fmLoop (line :: rest) fm ck =
      fmLoop rest (dictSet fm k (.s (pyStripQuotes (pyStrip ⟨rdata⟩)))) (some k) := by
  obtain ⟨c, t, hkd, hcw, hcd⟩ := hk3
  have hld : line.data = c :: (t ++ ':' :: rdata) := by rw [hline, hkd]; rfl
  have hcs : c ≠ ' ' := by
    intro he
    rw [he] at hcw
    exact absurd hcw (by decide)
  have hnd : pyStrip line ≠ "---" := pyStrip_head_ne_dashes hld hcw hcd
  have hpre : isPre "  - ".data line.data = false := by
    rw [hld, show ("  - " : String).data = [' ', ' ', '-', ' '] from rfl]
    exact isPre_cons_false (fun he => hcs he.symm)
  rw [fmLoop, if_neg hnd, if_neg (by simp [hpre]), keyMatch_mk hline hk1 hk2]

theorem fmLoop_item_step {a : String} {rest : List String} {fm : FmDict} {k : String}
    (ha : pyStrip a = a) :
    fmLoop (("  - \"" ++ a ++ "\"") :: rest) fm (some k) =
      fmLoop rest
        (match dictGet fm k with
          | some (.l xs) => dictSet fm k (.l (xs ++ [a]))
          | _ => dictSet fm k (.l [a])) (some k) := by
  have hld : ("  - \"" ++ a ++ "\"").data =
      ' ' :: ' ' :: '-' :: ' ' :: '"' :: (a.data ++ ['"']) := by
    rw [String.data_append, String.data_append]
    simp
  have hs : stripList (("  - \"" ++ a ++ "\"").data) =
      '-' :: (' ' :: '"' :: (a.data ++ ['"'])) := by
    rw [hld, stripList_cons_ws (by decide), stripList_cons_ws (by decide)]
    exact stripList_cons_of_ends (by decide)
      (Or.inr ⟨' ' :: '"' :: a.data, '"', by simp, by decide⟩)
  have hnd : pyStrip ("  - \"" ++ a ++ "\"") ≠ "---" := by
    intro he
    have h2 : stripList ("  - \"" ++ a ++ "\"").data = "---".data :=
      congrArg String.data he
    rw [hs, show ("---" : String).data = ['-', '-', '-'] from rfl] at h2
    injection h2 with _ h3
    injection h3 with h4 _
    exact absurd h4 (by decide)
  have hpre : isPre "  - ".data ("  - \"" ++ a ++ "\"").data = true := by
    rw [hld, show ("  - " : String).data = [' ', ' ', '-', ' '] from rfl]
    simp [isPre]
  have hgl : ('"' :: (a.data ++ ['"'])).getLast? = some '"' := by
    rw [show '"' :: (a.data ++ ['"']) = ('"' :: a.data) ++ ['"'] from rfl,
      List.getLast?_concat]
  have hval : pyStripQuotes (pyStrip ⟨(("  - \"" ++ a ++ "\"").data).drop 4⟩) = a := by
    rw [hld,
      show (' ' :: ' ' :: '-' :: ' ' :: '"' :: (a.data ++ ['"'])).drop 4 =
        '"' :: (a.data ++ ['"']) from rfl,
      show pyStrip ⟨'"' :: (a.data ++ ['"'])⟩ = ⟨'"' :: (a.data ++ ['"'])⟩ from
        congrArg String.mk (stripList_quoted a.data),
      pyStripQuotes, if_pos ⟨rfl, hgl⟩]
    show (⟨(('"' :: (a.data ++ ['"'])).tail).dropLast⟩ : String) = a
    rw [show ('"' :: (a.data ++ ['"'])).tail = a.data ++ ['"'] from rfl,
      List.dropLast_concat]
  rw [fmLoop, if_neg hnd, if_pos ⟨hpre, rfl⟩]
  simp only []
  rw [hval]
  simp only [Option.getD_some]

theorem fmLoop_acc_items (items : List String) (rest : List String) (fm : FmDict)
    (k : String) (acc : List String)
    (hfm : dictGet fm k = some (.l acc))
    (hit : ∀ a ∈ items, pyStrip a = a) :
    fmLoop (items.map (fun a => "  - \"" ++ a ++ "\"") ++ rest) fm (some k) =
      fmLoop rest (dictSet fm k (.l (acc ++ items))) (some k) := by
  induction items generalizing fm acc with
  | nil =>
    rw [List.map_nil, List.nil_append, List.append_nil, dictSet_eq_self hfm]
  | cons a items ih =>
    rw [List.map_cons, List.cons_append,
      fmLoop_item_step (hit a (List.mem_cons_self a items)), hfm]
    rw [ih (dictSet fm k (.l (acc ++ [a]))) (acc ++ [a]) (dictGet_dictSet_self fm k _)
      (fun x hx => hit x (List.mem_cons_of_mem a hx)), dictSet_dictSet_self]
    simp

theorem fmLoop_close (rest : List String) (fm : FmDict) (ck : Option String) :
    fmLoop ("---" :: rest) fm ck = some (fm, rest) := by
  rw [fmLoop, if_pos (by decide)]

theorem normalizeList_id {items : List String}
    (h : ∀ a ∈ items, pyStrip a = a ∧ a ≠ "") : normalizeList items = items := by
  induction items with
  | nil => rfl
  | cons a items ih =>
    have h1 := h a (List.mem_cons_self a items)
    show ((a :: items).map pyStrip).filter (· ≠ "") = a :: items
    rw [List.map_cons, h1.1, List.filter_cons_of_pos (by simp [h1.2])]
    exact congrArg (List.cons a)
      (ih (fun x hx => h x (List.mem_cons_of_mem a hx)))

theorem pyReplaceDQ_id {a : String} (h : '"' ∉ a.data) : pyReplaceDQ a = a := by
  rw [pyReplaceDQ]
  have h1 : a.data.map (fun c => if c = '"' then '\x27' else c) = a.data := by
    rw [List.map_congr_left (g := id) (fun x hx => by
      have hx2 : x ≠ '"' := fun he => h (he ▸ hx)
      simp [hx2]), List.map_id]
  conv_lhs => rw [h1]

theorem strip_space_value {v : String} (hv1 : pyStrip v = v) (hv2 : pyStripQuotes v = v) :
    pyStripQuotes (pyStrip ⟨' ' :: v.data⟩) = v := by
  rw [pyStrip_cons_ws (by decide),
    show pyStrip ⟨v.data⟩ = pyStrip v from rfl, hv1, hv2]

theorem strip_empty_value : pyStripQuotes (pyStrip ⟨([] : List Char)⟩) = "" := by decide

theorem noNL_append {s t : String} (hs : '\n' ∉ s.data) (ht : '\n' ∉ t.data) :
    '\n' ∉ (s ++ t).data := by
  rw [String.data_append]
  intro hm
  rcases List.mem_append.mp hm with h | h
  · exact hs h
  · exact ht h

theorem pyLstripNL_cons_nl (b : String) : pyLstripNL ⟨'\n' :: b.data⟩ = pyLstripNL b := by
  show (⟨List.dropWhile (· = '\n') ('\n' :: b.data)⟩ : String) = _
  rw [List.dropWhile_cons_of_pos (by simp)]
  rfl

theorem joinNL_blank_cons (b : String) : joinNL ("" :: pySegs b) = ⟨'\n' :: b.data⟩ := by
  rw [show ("" :: pySegs b) = [""] ++ pySegs b from rfl,
    joinNL_append (by simp) (pySegs_ne_nil b), joinNL_pySegs,
    show joinNL [""] = "" from rfl]
  apply String.ext
  rw [String.data_append, String.data_append]
  simp

end CodexWorktree

namespace CodexWorktree

theorem parse_hdr_body {hdr : List String} {fm : FmDict} (b : String)
    (hb2 : pyLstripNL b = b)
    (hnl : ∀ x ∈ hdr, '\n' ∉ x.data)
    (hlen : 3 ≤ hdr.length)
    (hhd : hdr.headD "" = "---")
    (hloop : fmLoop (hdr.drop 1 ++ pySegs b) [] none = some (fm, "" :: pySegs b)) :
    parse_frontmatter (joinNL (hdr ++ [b, ""])) = (fm, b) := by
  have hh : hdr ≠ [] := by
    intro he
    rw [he] at hlen
    simp at hlen
  have hexp : joinNL (hdr ++ [b, ""]) = joinNL (hdr ++ pySegs b ++ [""]) := by
    rw [show hdr ++ [b, ""] = hdr ++ ([b] ++ [""]) from rfl,
      List.append_assoc hdr (pySegs b) [""],
      joinNL_append hh (by simp), joinNL_append hh (by simp)]
    congr 1
    rw [joinNL_append (by simp) (by simp),
      joinNL_append (pySegs_ne_nil b) (by simp), joinNL_pySegs,
      show joinNL [b] = b from rfl]
  have hnl2 : ∀ x ∈ hdr ++ pySegs b ++ [""], '\n' ∉ x.data := by
    intro x hx
    rcases List.mem_append.mp hx with hx1 | hx2
    · rcases List.mem_append.mp hx1 with hx3 | hx4
      · exact hnl x hx3
      · exact pySegs_mem_noNL hx4
    · rw [List.mem_singleton.mp hx2]
      simp
  have hM : pySplitlines (joinNL (hdr ++ pySegs b ++ [""])) = hdr ++ pySegs b := by
    rw [pySplitlines_joinNL (by simp) hnl2, if_pos (by rw [List.getLast?_concat]),
      List.dropLast_concat]
  have hlen2 : ¬ (hdr ++ pySegs b).length < 3 := by
    rw [List.length_append]
    omega
  have hhd2 : (hdr ++ pySegs b).headD "" = "---" := by
    cases hdr with
    | nil => exact absurd rfl hh
    | cons x t => simpa using hhd
  have hdrop : (hdr ++ pySegs b).drop 1 = hdr.drop 1 ++ pySegs b := by
    cases hdr with
    | nil => exact absurd rfl hh
    | cons x t => simp
  rw [hexp, parse_frontmatter]
  rw [hM, if_neg hlen2, hhd2, if_neg (by decide), hdrop, hloop]
  simp only []
  rw [joinNL_blank_cons, pyLstripNL_cons_nl, hb2]

theorem fmLoop_scalar6 (m f t i th r : String) (rest : List String) (fm : FmDict)
    (ck : Option String)
    (hm1 : pyStrip m = m) (hm2 : pyStripQuotes m = m)
    (hf1 : pyStrip f = f) (hf2 : pyStripQuotes f = f)
    (ht1 : pyStrip t = t) (ht2 : pyStripQuotes t = t)
    (hi1 : pyStrip i = i) (hi2 : pyStripQuotes i = i)
    (hth1 : pyStrip th = th) (hth2 : pyStripQuotes th = th)
    (hr1 : pyStrip r = r) (hr2 : pyStripQuotes r = r) :
    fmLoop (("id: " ++ m) :: ("from: " ++ f) :: ("to: " ++ t) :: ("intent: " ++ i) ::
        ("thread: " ++ th) :: ("risk: " ++ r) :: rest) fm ck =
      fmLoop rest
        (dictSet (dictSet (dictSet (dictSet (dictSet (dictSet fm
          "id" (.s m)) "from" (.s f)) "to" (.s t)) "intent" (.s i))
          "thread" (.s th)) "risk" (.s r)) (some "risk") := by
  have hl1 : ("id: " ++ m).data = ("id" : String).data ++ ':' :: (' ' :: m.data) := by
    rw [String.data_append]
    rfl
  have hl2 : ("from: " ++ f).data = ("from" : String).data ++ ':' :: (' ' :: f.data) := by
    rw [String.data_append]
    rfl
  have hl3 : ("to: " ++ t).data = ("to" : String).data ++ ':' :: (' ' :: t.data) := by
    rw [String.data_append]
    rfl
  have hl4 : ("intent: " ++ i).data =
      ("intent" : String).data ++ ':' :: (' ' :: i.data) := by
    rw [String.data_append]
    rfl
  have hl5 : ("thread: " ++ th).data =
      ("thread" : String).data ++ ':' :: (' ' :: th.data) := by
    rw [String.data_append]
    rfl
  have hl6 : ("risk: " ++ r).data = ("risk" : String).data ++ ':' :: (' ' :: r.data) := by
    rw [String.data_append]
    rfl
  rw [fmLoop_scalar_step hl1 (by decide) (by decide) ⟨'i', ['d'], rfl, by decide, by decide⟩,
    strip_space_value hm1 hm2,
    fmLoop_scalar_step hl2 (by decide) (by decide)
      ⟨'f', ['r', 'o', 'm'], rfl, by decide, by decide⟩,
    strip_space_value hf1 hf2,
    fmLoop_scalar_step hl3 (by decide) (by decide) ⟨'t', ['o'], rfl, by decide, by decide⟩,
    strip_space_value ht1 ht2,
    fmLoop_scalar_step hl4 (by decide) (by decide)
      ⟨'i', ['n', 't', 'e', 'n', 't'], rfl, by decide, by decide⟩,
    strip_space_value hi1 hi2,
    fmLoop_scalar_step hl5 (by decide) (by decide)
      ⟨'t', ['h', 'r', 'e', 'a', 'd'], rfl, by decide, by decide⟩,
    strip_space_value hth1 hth2,
    fmLoop_scalar_step hl6 (by decide) (by decide)
      ⟨'r', ['i', 's', 'k'], rfl, by decide, by decide⟩,
    strip_space_value hr1 hr2]

end CodexWorktree

namespace CodexWorktree

theorem fmLoop_item_step_default {a : String} {rest : List String} {fm : FmDict}
    {k : String} (ha : pyStrip a = a) (hget : dictGet fm k = some (.s "")) :
    fmLoop (("  - \"" ++ a ++ "\"") :: rest) fm (some k) =
      fmLoop rest (dictSet fm k (.l [a])) (some k) := by
  rw [fmLoop_item_step ha, hget]

theorem fmLoop_acceptance (acc : List String) (rest : List String) (fm : FmDict)
    (ck : Option String)
    (hacc : ∀ a ∈ acc, pyStrip a = a) (hne : acc ≠ []) :
    fmLoop ("acceptance:" :: (acc.map (fun a => "  - \"" ++ a ++ "\"") ++ rest)) fm ck =
      fmLoop rest (dictSet fm "acceptance" (.l acc)) (some "acceptance") := by
  obtain ⟨a0, items, rfl⟩ : ∃ a0 items, acc = a0 :: items := by
    cases acc with
    | nil => exact absurd rfl hne
    | cons x l => exact ⟨x, l, rfl⟩
  have hl : ("acceptance:" : String).data =
      ("acceptance" : String).data ++ ':' :: ([] : List Char) := by decide
  rw [fmLoop_scalar_step hl (by decide) (by decide)
      ⟨'a', ['c', 'c', 'e', 'p', 't', 'a', 'n', 'c', 'e'], rfl, by decide, by decide⟩,
    strip_empty_value]
  rw [List.map_cons, List.cons_append,
    fmLoop_item_step_default (hacc a0 (List.mem_cons_self a0 items))
      (dictGet_dictSet_self _ _ _)]
  rw [fmLoop_acc_items items rest _ "acceptance" [a0] (dictGet_dictSet_self _ _ _)
      (fun x hx => hacc x (List.mem_cons_of_mem a0 hx)),
    dictSet_dictSet_self, dictSet_dictSet_self]
  rfl

/-- C7 (amended): over the validity domain, parsing inverts emission. -/
theorem C7_emit_parse_roundtrip (h : MsgHeader) (b : String)
    (hH : ValidHeader h) (hB : ValidBody b) :
    parse_frontmatter (enqueue_bus_message h b) = (headerDict h, b) := by
  obtain ⟨hS, hAcc⟩ := hH
  obtain ⟨hb1, hb2⟩ := hB
  have hmid := hS h.mid (by simp)
  have hfrom := hS h.fromRole (by simp)
  have hto := hS h.toRole (by simp)
  have hint := hS h.intent (by simp)
  have hthr := hS h.thread (by simp)
  have hrisk := hS h.risk (by simp)
  have htid := hS h.taskId (by simp)
  have hnorm : normalizeList h.acceptance = h.acceptance :=
    normalizeList_id (fun a ha => ⟨(hAcc a ha).1, (hAcc a ha).2.1⟩)
  have hmap : h.acceptance.map (fun a => "  - \"" ++ pyReplaceDQ a ++ "\"")
      = h.acceptance.map (fun a => "  - \"" ++ a ++ "\"") :=
    List.map_congr_left (fun a ha => by rw [pyReplaceDQ_id (hAcc a ha).2.2.2])
  have hwrapnl : ∀ x ∈ h.acceptance.map (fun a => "  - \"" ++ a ++ "\""),
      '\n' ∉ x.data := by
    intro x hx
    obtain ⟨a, ha, rfl⟩ := List.mem_map.mp hx
    exact noNL_append (noNL_append (by decide) (hAcc a ha).2.2.1) (by decide)
  rw [enqueue_bus_message, enqueueLines, hb1]
  by_cases hT : h.taskId = ""
  · by_cases hA : h.acceptance = []
    · have hhdr : enqueueHdrLines h =
          ["---", "id: " ++ h.mid, "from: " ++ h.fromRole, "to: " ++ h.toRole,
            "intent: " ++ h.intent, "thread: " ++ h.thread, "risk: " ++ h.risk,
            "---", ""] := by
        rw [enqueueHdrLines, htid.1, hT, hnorm, hA]
        simp
      have hdict : headerDict h = [("id", FmVal.s h.mid), ("from", FmVal.s h.fromRole),
          ("to", FmVal.s h.toRole), ("intent", FmVal.s h.intent),
          ("thread", FmVal.s h.thread), ("risk", FmVal.s h.risk)] := by
        rw [headerDict, htid.1, hT, hnorm, hA]
        simp
      rw [hhdr, hdict]
      apply parse_hdr_body b hb2
      · intro x hx
        simp only [List.mem_cons, List.not_mem_nil, or_false] at hx
        rcases hx with rfl | rfl | rfl | rfl | rfl | rfl | rfl | rfl | rfl
        · decide
        · exact noNL_append (by decide) hmid.2.2
        · exact noNL_append (by decide) hfrom.2.2
        · exact noNL_append (by decide) hto.2.2
        · exact noNL_append (by decide) hint.2.2
        · exact noNL_append (by decide) hthr.2.2
        · exact noNL_append (by decide) hrisk.2.2
        · decide
        · decide
      · simp
      · rfl
      · simp only [List.drop_one, List.tail_cons, List.cons_append, List.nil_append]
        rw [fmLoop_scalar6 h.mid h.fromRole h.toRole h.intent h.thread h.risk _ _ _
            hmid.1 hmid.2.1 hfrom.1 hfrom.2.1 hto.1 hto.2.1 hint.1 hint.2.1
            hthr.1 hthr.2.1 hrisk.1 hrisk.2.1,
          fmLoop_close]
        simp [dictSet]
    · have hhdr : enqueueHdrLines h =
          "---" :: ("id: " ++ h.mid) :: ("from: " ++ h.fromRole) ::
            ("to: " ++ h.toRole) :: ("intent: " ++ h.intent) ::
            ("thread: " ++ h.thread) :: ("risk: " ++ h.risk) :: "acceptance:" ::
            (h.acceptance.map (fun a => "  - \"" ++ a ++ "\"") ++ ["---", ""]) := by
        rw [enqueueHdrLines, htid.1, hT, hnorm]
        simp [hA, hmap]
      have hdict : headerDict h = [("id", FmVal.s h.mid), ("from", FmVal.s h.fromRole),
          ("to", FmVal.s h.toRole), ("intent", FmVal.s h.intent),
          ("thread", FmVal.s h.thread), ("risk", FmVal.s h.risk),
          ("acceptance", FmVal.l h.acceptance)] := by
        rw [headerDict, htid.1, hT, hnorm]
        simp [hA]
      rw [hhdr, hdict]
      apply parse_hdr_body b hb2
      · intro x hx
        simp only [List.mem_cons] at hx
        rcases hx with rfl | rfl | rfl | rfl | rfl | rfl | rfl | rfl | hx2
        · decide
        · exact noNL_append (by decide) hmid.2.2
        · exact noNL_append (by decide) hfrom.2.2
        · exact noNL_append (by decide) hto.2.2
        · exact noNL_append (by decide) hint.2.2
        · exact noNL_append (by decide) hthr.2.2
        · exact noNL_append (by decide) hrisk.2.2
        · decide
        · rcases List.mem_append.mp hx2 with hx3 | hx4
          · exact hwrapnl x hx3
          · simp only [List.mem_cons, List.not_mem_nil, or_false] at hx4
            rcases hx4 with rfl | rfl
            · decide
            · decide
      · simp only [List.length_cons, List.length_append, List.length_map]
        omega
      · rfl
      · simp only [List.drop_one, List.tail_cons, List.cons_append, List.nil_append,
          List.append_assoc]
        rw [fmLoop_scalar6 h.mid h.fromRole h.toRole h.intent h.thread h.risk _ _ _
            hmid.1 hmid.2.1 hfrom.1 hfrom.2.1 hto.1 hto.2.1 hint.1 hint.2.1
            hthr.1 hthr.2.1 hrisk.1 hrisk.2.1,
          fmLoop_acceptance h.acceptance ("---" :: "" :: pySegs b) _ _
            (fun a ha => (hAcc a ha).1) hA,
          fmLoop_close]
        simp [dictSet]
  · by_cases hA : h.acceptance = []
    · have hhdr : enqueueHdrLines h =
          ["---", "id: " ++ h.mid, "from: " ++ h.fromRole, "to: " ++ h.toRole,
            "intent: " ++ h.intent, "thread: " ++ h.thread, "risk: " ++ h.risk,
            "task_id: " ++ h.taskId, "---", ""] := by
        rw [enqueueHdrLines, htid.1, hnorm, hA]
        simp [hT]
      have hdict : headerDict h = [("id", FmVal.s h.mid), ("from", FmVal.s h.fromRole),
          ("to", FmVal.s h.toRole), ("intent", FmVal.s h.intent),
          ("thread", FmVal.s h.thread), ("risk", FmVal.s h.risk),
          ("task_id", FmVal.s h.taskId)] := by
        rw [headerDict, htid.1, hnorm, hA]
        simp [hT]
      rw [hhdr, hdict]
      apply parse_hdr_body b hb2
      · intro x hx
        simp only [List.mem_cons, List.not_mem_nil, or_false] at hx
        rcases hx with rfl | rfl | rfl | rfl | rfl | rfl | rfl | rfl | rfl | rfl
        · decide
        · exact noNL_append (by decide) hmid.2.2
        · exact noNL_append (by decide) hfrom.2.2
        · exact noNL_append (by decide) hto.2.2
        · exact noNL_append (by decide) hint.2.2
        · exact noNL_append (by decide) hthr.2.2
        · exact noNL_append (by decide) hrisk.2.2
        · exact noNL_append (by decide) htid.2.2
        · decide
        · decide
      · simp
      · rfl
      · simp only [List.drop_one, List.tail_cons, List.cons_append, List.nil_append]
        have hl7 : ("task_id: " ++ h.taskId).data =
            ("task_id" : String).data ++ ':' :: (' ' :: h.taskId.data) := by
          rw [String.data_append]
          rfl
        rw [fmLoop_scalar6 h.mid h.fromRole h.toRole h.intent h.thread h.risk _ _ _
            hmid.1 hmid.2.1 hfrom.1 hfrom.2.1 hto.1 hto.2.1 hint.1 hint.2.1
            hthr.1 hthr.2.1 hrisk.1 hrisk.2.1,
          fmLoop_scalar_step hl7 (by decide) (by decide)
            ⟨'t', ['a', 's', 'k', '_', 'i', 'd'], rfl, by decide, by decide⟩,
          strip_space_value htid.1 htid.2.1,
          fmLoop_close]
        simp [dictSet]
    · have hhdr : enqueueHdrLines h =
          "---" :: ("id: " ++ h.mid) :: ("from: " ++ h.fromRole) ::
            ("to: " ++ h.toRole) :: ("intent: " ++ h.intent) ::
            ("thread: " ++ h.thread) :: ("risk: " ++ h.risk) ::
            ("task_id: " ++ h.taskId) :: "acceptance:" ::
            (h.acceptance.map (fun a => "  - \"" ++ a ++ "\"") ++ ["---", ""]) := by
        rw [enqueueHdrLines, htid.1, hnorm]
        simp [hT, hA, hmap]
      have hdict : headerDict h = [("id", FmVal.s h.mid), ("from", FmVal.s h.fromRole),
          ("to", FmVal.s h.toRole), ("intent", FmVal.s h.intent),
          ("thread", FmVal.s h.thread), ("risk", FmVal.s h.risk),
          ("task_id", FmVal.s h.taskId), ("acceptance", FmVal.l h.acceptance)] := by
        rw [headerDict, htid.1, hnorm]
        simp [hT, hA]
      rw [hhdr, hdict]
      apply parse_hdr_body b hb2
      · intro x hx
        simp only [List.mem_cons] at hx
        rcases hx with rfl | rfl | rfl | rfl | rfl | rfl | rfl | rfl | rfl | hx2
        · decide
        · exact noNL_append (by decide) hmid.2.2
        · exact noNL_append (by decide) hfrom.2.2
        · exact noNL_append (by decide) hto.2.2
        · exact noNL_append (by decide) hint.2.2
        · exact noNL_append (by decide) hthr.2.2
        · exact noNL_append (by decide) hrisk.2.2
        · exact noNL_append (by decide) htid.2.2
        · decide
        · rcases List.mem_append.mp hx2 with hx3 | hx4
          · exact hwrapnl x hx3
          · simp only [List.mem_cons, List.not_mem_nil, or_false] at hx4
            rcases hx4 with rfl | rfl
            · decide
            · decide
      · simp only [List.length_cons, List.length_append, List.length_map]
        omega
      · rfl
      · simp only [List.drop_one, List.tail_cons, List.cons_append, List.nil_append,
          List.append_assoc]
        have hl7 : ("task_id: " ++ h.taskId).data =
            ("task_id" : String).data ++ ':' :: (' ' :: h.taskId.data) := by
          rw [String.data_append]
          rfl
        rw [fmLoop_scalar6 h.mid h.fromRole h.toRole h.intent h.thread h.risk _ _ _
            hmid.1 hmid.2.1 hfrom.1 hfrom.2.1 hto.1 hto.2.1 hint.1 hint.2.1
            hthr.1 hthr.2.1 hrisk.1 hrisk.2.1,
          fmLoop_scalar_step hl7 (by decide) (by decide)
            ⟨'t', ['a', 's', 'k', '_', 'i', 'd'], rfl, by decide, by decide⟩,
          strip_space_value htid.1 htid.2.1,
          fmLoop_acceptance h.acceptance ("---" :: "" :: pySegs b) _ _
            (fun a ha => (hAcc a ha).1) hA,
          fmLoop_close]
        simp [dictSet]

end CodexWorktree

namespace CodexWorktree

/-- C7 (counterexample): the round trip fails without restrictions on the
header and body.  A body with a trailing newline comes back `rstrip`-ped,
and an acceptance item containing a double quote comes back with the quote
replaced by a single quote (`a.replace('"', "'")` in `enqueue_bus_message`),
so `parse(emit(H, B)) = (H, B)` does not hold for every body and for values
containing double-quoted strings. -/
theorem C7_roundtrip_counterexample :
    parse_frontmatter (enqueue_bus_message
        ⟨"m1", "lead", "builder-a", "implement", "s1", "low", "", []⟩ "hi\n") ≠
      (headerDict ⟨"m1", "lead", "builder-a", "implement", "s1", "low", "", []⟩,
        "hi\n") ∧
    parse_frontmatter (enqueue_bus_message
        ⟨"m1", "lead", "builder-a", "implement", "s1", "low", "",
          ["say \"hi\""]⟩ "x") ≠
      (headerDict ⟨"m1", "lead", "builder-a", "implement", "s1", "low", "",
        ["say \"hi\""]⟩, "x") := by
  decide

/-- C7 witness: the amended round trip at a concrete header (with task id and
two acceptance items) and a concrete multi-word body. -/
theorem C7_emit_parse_roundtrip_witness :
    parse_frontmatter (enqueue_bus_message
        ⟨"m7", "lead", "builder-a", "implement", "s7", "low", "T7",
          ["check output", "update docs"]⟩ "do the thing") =
      (headerDict ⟨"m7", "lead", "builder-a", "implement", "s7", "low", "T7",
        ["check output", "update docs"]⟩, "do the thing") :=
  C7_emit_parse_roundtrip
    ⟨"m7", "lead", "builder-a", "implement", "s7", "low", "T7",
      ["check output", "update docs"]⟩ "do the thing"
    ⟨by decide, by decide⟩ ⟨by decide, by decide⟩

end CodexWorktree
